import Mathlib

/-!
Verification of the FileManager backend service against its specification.

The definitions below are a shallow embedding of the Python sources under
`src/scripts`: SQLAlchemy rows become Lean structures, the database becomes
lists of rows, the filesystem becomes a pair of path lists, timestamps are
epoch seconds (`Nat`), and every fallible endpoint returns an explicit
result.  Each definition carries a comment naming the source function it
translates.  `STORAGE_PATH` (the configured storage root, `Storage.PATH` in
the final configuration iteration) is passed as the `root` parameter;
filesystem paths are segment lists, mirroring `os.path.join`.
-/

deriving instance DecidableEq for Except

namespace FileManager

/-- A decoded-or-not share token: `create_jwt_token` (common_utils.py 20-28)
signs a payload carrying `file_id` and an `exp` claim.  `wellFormed` stands
for "decodes and verifies under the service's secret key". -/
structure ShareToken where
  wellFormed : Bool
  file_id : Option Nat
  exp : Nat
deriving DecidableEq, Repr

/-- FileMetadata row (scripts/models/file_management.py 9-23).  `mimetype`,
`share_token`, `share_expiry` and `folder_id` are nullable columns. -/
structure FileMeta where
  id : Nat
  filename : String
  filepath : List String
  mimetype : Option String
  size : Nat
  is_public : Bool
  share_token : Option ShareToken
  share_expiry : Option Nat
  uploaded_at : Nat
  folder_id : Option Nat
  owner_id : Nat
deriving DecidableEq, Repr

/-- Folder row (scripts/models/folder_management.py 11-20). -/
structure Folder where
  id : Nat
  name : String
  parent_id : Option Nat
  owner_id : Nat
  created_at : Nat
deriving DecidableEq, Repr

/-- The two tables the item services touch. -/
structure DB where
  folders : List Folder
  files : List FileMeta
deriving DecidableEq, Repr

/-- The on-disk tree: existing directories, and existing files with sizes. -/
structure FS where
  dirs : List (List String)
  files : List (List String × Nat)
deriving DecidableEq, Repr

/-- Database plus filesystem, the state an item operation reads and writes. -/
structure State where
  db : DB
  fs : FS
deriving DecidableEq, Repr

/-- A raised Python exception: `http` is `fastapi.HTTPException`, `err` any
other exception (named by its Python class). -/
inductive Exc where
  | http (status : Nat) (detail : String)
  | err (name : String)
deriving DecidableEq, Repr

/-- Query `FileMetadata` by primary key and owner, `.first()`. -/
def findFile (db : DB) (fileId uid : Nat) : Option FileMeta :=
  db.files.find? (fun f => f.id == fileId && f.owner_id == uid)

/-- Query `Folder` by primary key and owner, `.first()`. -/
def findFolder (db : DB) (folderId uid : Nat) : Option Folder :=
  db.folders.find? (fun f => f.id == folderId && f.owner_id == uid)

/-- ORM mutation of the one object a query returned: update the first row
matching the predicate. -/
def updateFirst (p : α → Bool) (g : α → α) : List α → List α
  | [] => []
  | x :: xs => if p x then g x :: xs else x :: updateFirst p g xs

/-- Surrogate for the autoincrement primary key `db.add`/`db.flush` assigns. -/
def freshFileId (db : DB) : Nat :=
  (db.files.map (·.id)).foldr max 0 + 1

/-- Surrogate for the autoincrement primary key of a new folder row. -/
def freshFolderId (db : DB) : Nat :=
  (db.folders.map (·.id)).foldr max 0 + 1

/-- os.path.exists: the path is a present directory or a present file. -/
def fsExists (fs : FS) (p : List String) : Bool :=
  fs.dirs.any (· == p) || fs.files.any (·.1 == p)

/-- os.makedirs(p, exist_ok=True). -/
def fsMakedirs (fs : FS) (p : List String) : FS :=
  if fs.dirs.any (· == p) then fs else { fs with dirs := p :: fs.dirs }

/-- os.path.getsize. -/
def fsGetSize (fs : FS) (p : List String) : Option Nat :=
  (fs.files.find? (·.1 == p)).map (·.2)

/-- os.remove. -/
def fsRemoveFile (fs : FS) (p : List String) : FS :=
  { fs with files := fs.files.filter (fun e => !(e.1 == p)) }

/-- shutil.rmtree: remove the directory and everything below it. -/
def fsRmtree (fs : FS) (p : List String) : FS :=
  { dirs := fs.dirs.filter (fun d => !(List.isPrefixOf p d)),
    files := fs.files.filter (fun e => !(List.isPrefixOf p e.1)) }

/-- shutil.move / os.rename of one file: `none` models the FileNotFoundError
raised when the source file does not exist. -/
def fsMoveFile (fs : FS) (src dst : List String) : Option FS :=
  match fs.files.find? (·.1 == src) with
  | none => none
  | some e =>
    some { fs with
            files := (dst, e.2) :: (fs.files.filter (fun q => !(q.1 == src) && !(q.1 == dst))) }

/-- shutil.copy2 of one file (content and size preserved): `none` models the
FileNotFoundError raised when the source file does not exist. -/
def fsCopyFile (fs : FS) (src dst : List String) : Option FS :=
  match fs.files.find? (·.1 == src) with
  | none => none
  | some e =>
    some { fs with files := (dst, e.2) :: (fs.files.filter (fun q => !(q.1 == dst))) }

/-- shutil.move / os.rename of a directory: every entry below `src` is
re-rooted below `dst`. -/
def fsMoveTree (fs : FS) (src dst : List String) : FS :=
  { dirs := fs.dirs.map
      (fun d => if List.isPrefixOf src d then dst ++ d.drop src.length else d),
    files := fs.files.map
      (fun e => if List.isPrefixOf src e.1 then (dst ++ e.1.drop src.length, e.2) else e) }

/-- open(p, "wb") + copyfileobj: create or overwrite the file with the payload. -/
def fsWriteFile (fs : FS) (p : List String) (size : Nat) : FS :=
  { fs with files := (p, size) :: fs.files.filter (fun q => !(q.1 == p)) }

/-- Split a character list at its last dot, returning the part before the dot
and the part from the dot on; `none` when there is no dot. -/
def lastDotSplit : List Char → Option (List Char × List Char)
  | [] => none
  | c :: cs =>
    match lastDotSplit cs with
    | some (pre, post) => some (c :: pre, post)
    | none => if c = '.' then some ([], '.' :: cs) else none

/-- os.path.splitext on a bare filename (no separators): split at the last
dot, except when every character before that dot is itself a dot (so
".bashrc" keeps its dot in the root, as in CPython). -/
def splitext (s : String) : String × String :=
  match lastDotSplit s.toList with
  | none => (s, "")
  | some (pre, post) =>
    if pre.any (fun c => !(c == '.')) then (String.mk pre, String.mk post) else (s, "")

/-- The upload rename candidates: `f"{base_name}_{counter}{extension}"`
(file_management_service.py line 68), counter = k. -/
def uploadCandidate (base ext : String) (k : Nat) : String :=
  base ++ "_" ++ Nat.repr k ++ ext

/-- The copy rename candidates (item_management_service.py lines 215/221 and
268/274): `_copy` first, then `_copy_1`, `_copy_2`, ... -/
def copyCandidate (base ext : String) : Nat → String
  | 0 => base ++ "_copy" ++ ext
  | k + 1 => base ++ "_copy_" ++ Nat.repr (k + 1) ++ ext

/-- The shared shape of both rename loops: try candidate `k`, `k+1`, ... and
return the first one no existing row carries.  The Python loops are unbounded
`while` loops; `fuel` bounds the search, and every theorem about the loop
carries the (always satisfiable) hypothesis that a free candidate occurs
within the window, making the fuel-exhausted fallback unreachable. -/
def firstFreshLoop (cand : Nat → String) (taken : List String) : Nat → Nat → String
  | k, 0 => cand k
  | k, fuel + 1 => if taken.contains (cand k) then firstFreshLoop cand taken (k + 1) fuel else cand k

/-- Filenames of the rows the upload duplicate queries range over
(file_management_service.py 56-76): same folder, same owner. -/
def uploadSiblingNames (db : DB) (uid : Nat) (folderId : Option Nat) : List String :=
  (db.files.filter (fun y => y.folder_id == folderId && y.owner_id == uid)).map (·.filename)

/-- upload_file's duplicate-name handling (file_management_service.py 62-76):
keep the name when free, otherwise append `_1`, `_2`, ... before the
extension, taking the first counter whose name is free. -/
def uploadStoredFilename (taken : List String) (name : String) : String :=
  if taken.contains name then
    firstFreshLoop (uploadCandidate (splitext name).1 (splitext name).2) taken 1 (taken.length + 1)
  else name

/-- Filenames of the rows copy_item's duplicate queries range over
(item_management_service.py 205-222): same destination folder id, any owner. -/
def copySiblingNames (db : DB) (destId : Option Nat) : List String :=
  (db.files.filter (fun y => y.folder_id == destId)).map (·.filename)

/-- copy_item's unique-name generation for a file (item_management_service.py
211-224): keep the name when free, otherwise `_copy`, `_copy_1`, ... -/
def copyStoredFilename (taken : List String) (name : String) : String :=
  if taken.contains name then
    firstFreshLoop (copyCandidate (splitext name).1 (splitext name).2) taken 0 (taken.length + 1)
  else name

/-- copy_item's unique-name generation for a folder (item_management_service.py
260-277): as for files but on the whole name, with no extension split. -/
def copyStoredFolderName (taken : List String) (name : String) : String :=
  if taken.contains name then
    firstFreshLoop (copyCandidate name "") taken 0 (taken.length + 1)
  else name

/-- A finite model of the stdlib `mimetypes` extension table: the claims only
need that some extensions resolve and that an extension-less name does not. -/
def mimeTable : List (String × String) :=
  [(".pdf", "application/pdf"), (".txt", "text/plain"), (".png", "image/png"),
   (".jpg", "image/jpeg"), (".html", "text/html"), (".json", "application/json"),
   (".csv", "text/csv"), (".zip", "application/zip"), (".mp4", "video/mp4")]

/-- mimetypes.guess_type(name)[0]: `none` when the extension is unknown. -/
def guess_type (name : String) : Option String :=
  (mimeTable.find? (fun p => p.1 == (splitext name).2)).map (·.2)

/-- MIME type the directory-sync engine records for a discovered file
(common_utils.py line 136): `mimetypes.guess_type(file_name)[0] or
"application/octet-stream"`. -/
def syncInferredMime (fileName : String) : String :=
  (guess_type fileName).getD "application/octet-stream"

/-- DeleteRequest (common_models.py 9-11); `item_type` is a plain string the
handlers compare against `ItemType.FILE`, i.e. "file". -/
structure DeleteRequest where
  item_type : String
  item_id : Nat
deriving DecidableEq, Repr

/-- MoveRequest (common_models.py 13-16). -/
structure MoveRequest where
  item_type : String
  item_id : Nat
  destination_folder_id : Option Nat
deriving DecidableEq, Repr

/-- CopyRequest (common_models.py 18-21). -/
structure CopyRequest where
  item_type : String
  item_id : Nat
  destination_folder_id : Option Nat
deriving DecidableEq, Repr

/-- RenameRequest (common_models.py 24-27). -/
structure RenameRequest where
  item_type : String
  item_id : Nat
  new_name : String
deriving DecidableEq, Repr

/-- Destination-folder lookup shared by move_item and copy_item
(item_management_service.py 93-102 and 184-193): a given id must resolve to a
folder of the caller, else 404. -/
def resolveDest (db : DB) (uid : Nat) : Option Nat → Except Exc (Option Folder)
  | none => .ok none
  | some d =>
    match findFolder db d uid with
    | some f => .ok (some f)
    | none => .error (.http 404 "Destination folder not found")

/-- The parent step of the cycle-check walk (item_management_service.py 149):
`db.query(Folder).filter_by(id=current_parent.parent_id).first()` — lookup by
id alone; a null parent id matches no row. -/
def nextParent (folders : List Folder) (cur : Folder) : Option Folder :=
  match cur.parent_id with
  | none => none
  | some p => folders.find? (fun f => f.id == p)

/-- move_item's walk up the destination's ancestor chain (item_management
service 140-149): 400 when the moved folder's id appears.  The Python loop
does not terminate on a cyclic chain; `fuel` caps the walk, so theorems about
rejected moves only use runs in which the 400 fires within the window. -/
def ancestorCycleCheck (folders : List Folder) (itemId : Nat) : Option Folder → Nat → Except Exc Unit
  | none, _ => .ok ()
  | some _, 0 => .ok ()
  | some cur, fuel + 1 =>
    if cur.id == itemId then
      .error (.http 400 "Cannot move a folder into itself or its subdirectories")
    else ancestorCycleCheck folders itemId (nextParent folders cur) fuel

/-- The file branch of move_item (item_management_service.py 104-127).  The
new path is `os.path.join(STORAGE_PATH, str(user.id), dest.name, filename)` —
note: only the destination folder's own name, never its ancestors.  On
failure the state at the failure point is returned with the exception
(filesystem effects before the raise persist). -/
def moveFileOp (root : String) (uid fileId : Nat) (destId : Option Nat) (dest : Option Folder)
    (s : State) : Except (Exc × State) State :=
  match findFile s.db fileId uid with
  | none => .error (.http 404 "File not found", s)
  | some file =>
    let newPath : List String :=
      match dest with
      | some d => [root, Nat.repr uid, d.name, file.filename]
      | none => [root, Nat.repr uid, file.filename]
    let s1 : State := { s with fs := fsMakedirs s.fs newPath.dropLast }
    match fsMoveFile s1.fs file.filepath newPath with
    | none => .error (.err "FileNotFoundError", s1)
    | some fs2 =>
      .ok { db := { s.db with
              files := updateFirst (fun y => y.id == file.id && y.owner_id == uid)
                (fun y => { y with filepath := newPath, folder_id := destId }) s.db.files },
            fs := fs2 }

/-- The folder branch of move_item (item_management_service.py 129-164):
cycle check, then a physical move of `STORAGE_PATH/uid/name` (again only the
folder's own name), then the parent-id update. -/
def moveFolderOp (root : String) (uid itemId : Nat) (destId : Option Nat) (dest : Option Folder)
    (s : State) : Except (Exc × State) State :=
  match findFolder s.db itemId uid with
  | none => .error (.http 404 "Folder not found", s)
  | some folder =>
    match (if destId.isSome then
            ancestorCycleCheck s.db.folders itemId dest (s.db.folders.length + 1)
           else .ok ()) with
    | .error e => .error (e, s)
    | .ok _ =>
      let oldPath : List String := [root, Nat.repr uid, folder.name]
      let newPath : List String :=
        match dest with
        | some d => [root, Nat.repr uid, d.name, folder.name]
        | none => [root, Nat.repr uid, folder.name]
      let fs2 :=
        if fsExists s.fs oldPath then fsMoveTree (fsMakedirs s.fs newPath.dropLast) oldPath newPath
        else s.fs
      .ok { db := { s.db with
              folders := updateFirst (fun y => y.id == folder.id && y.owner_id == uid)
                (fun y => { y with parent_id := destId }) s.db.folders },
            fs := fs2 }

/-- Body of the move_item endpoint: destination resolution then dispatch on
the item-kind string (anything other than "file" takes the folder branch). -/
def moveItemBody (root : String) (uid : Nat) (req : MoveRequest) (s : State) :
    Except (Exc × State) State :=
  match resolveDest s.db uid req.destination_folder_id with
  | .error e => .error (e, s)
  | .ok dest =>
    if req.item_type == "file" then moveFileOp root uid req.item_id req.destination_folder_id dest s
    else moveFolderOp root uid req.item_id req.destination_folder_id dest s

/-- move_item's endpoint wrapper (item_management_service.py 91, 169-173):
`except Exception` catches every exception — the HTTPExceptions raised inside
included — rolls the session back (database changes revert, filesystem
changes persist) and re-raises HTTPException(500, ...).  The result is the
HTTP status together with the state left behind. -/
def move_item (root : String) (uid : Nat) (req : MoveRequest) (s : State) : Nat × State :=
  match moveItemBody root uid req s with
  | .ok sOut => (200, sOut)
  | .error (_, sFail) => (500, { db := s.db, fs := sFail.fs })

/-- delete_item's recursive row cleanup (item_management_service.py 62-72):
delete every file row of the folder (no owner filter in the source), then
recurse into subfolders and delete their rows by primary key. -/
def deleteFolderContents (folderId : Nat) (db : DB) : Nat → DB
  | 0 => db
  | fuel + 1 =>
    let db1 : DB := { db with files := db.files.filter (fun f => !(f.folder_id == some folderId)) }
    let subs := db1.folders.filter (fun f => f.parent_id == some folderId)
    subs.foldl
      (fun d sf =>
        let dNext := deleteFolderContents sf.id d fuel
        { dNext with folders := dNext.folders.filter (fun g => !(g.id == sf.id)) })
      db1

/-- Body of delete_item (item_management_service.py 28-76).  The folder
branch removes the on-disk tree at `STORAGE_PATH/uid/name` (only the folder's
own name) and then the rows. -/
def deleteItemBody (root : String) (uid : Nat) (req : DeleteRequest) (s : State) :
    Except (Exc × State) State :=
  if req.item_type == "file" then
    match findFile s.db req.item_id uid with
    | none => .error (.http 404 "File not found", s)
    | some file =>
      let fs1 := if fsExists s.fs file.filepath then fsRemoveFile s.fs file.filepath else s.fs
      .ok { db := { s.db with files := s.db.files.filter (fun y => !(y.id == file.id)) },
            fs := fs1 }
  else
    match findFolder s.db req.item_id uid with
    | none => .error (.http 404 "Folder not found", s)
    | some folder =>
      let folderPath : List String := [root, Nat.repr uid, folder.name]
      let fs1 := if fsExists s.fs folderPath then fsRmtree s.fs folderPath else s.fs
      let db1 := deleteFolderContents folder.id s.db (s.db.folders.length + 1)
      .ok { db := { db1 with folders := db1.folders.filter (fun g => !(g.id == folder.id)) },
            fs := fs1 }

/-- delete_item's endpoint wrapper (item_management_service.py 26, 78-82):
as for move_item, every exception — the 404s included — surfaces as a 500. -/
def delete_item (root : String) (uid : Nat) (req : DeleteRequest) (s : State) : Nat × State :=
  match deleteItemBody root uid req s with
  | .ok sOut => (200, sOut)
  | .error (_, sFail) => (500, { db := s.db, fs := sFail.fs })

/-- The file branch of copy_item (item_management_service.py 195-247): pick a
unique name in the destination, copy the bytes, insert a new row with
`is_public=False` and the destination's id (path again built from the
destination folder's own name only). -/
def copyFileOp (root : String) (uid now fileId : Nat) (destId : Option Nat) (dest : Option Folder)
    (s : State) : Except (Exc × State) State :=
  match findFile s.db fileId uid with
  | none => .error (.http 404 "File not found", s)
  | some file =>
    let newFilename := copyStoredFilename (copySiblingNames s.db destId) file.filename
    let newPath : List String :=
      match dest with
      | some d => [root, Nat.repr uid, d.name, newFilename]
      | none => [root, Nat.repr uid, newFilename]
    let s1 : State := { s with fs := fsMakedirs s.fs newPath.dropLast }
    match fsCopyFile s1.fs file.filepath newPath with
    | none => .error (.err "FileNotFoundError", s1)
    | some fs2 =>
      match fsGetSize fs2 newPath with
      | none => .error (.err "OSError", { s1 with fs := fs2 })
      | some sz =>
        .ok { db := { s.db with
                files := s.db.files ++
                  [{ id := freshFileId s.db, filename := newFilename, filepath := newPath,
                     mimetype := file.mimetype, size := sz, is_public := false,
                     share_token := none, share_expiry := none, uploaded_at := now,
                     folder_id := destId, owner_id := uid }] },
              fs := fs2 }

/-- The per-folder file loop of copy_folder_recursive (item_management
service 298-318): copy each contained file; a failed copy2 raises, the inner
`except` swallows it, and the rows already added stay in the session. -/
def copyFilesInto (uid now newFolderId : Nat) (newFolderPath : List String)
    (srcFiles : List FileMeta) (s : State) : State × Bool :=
  match srcFiles with
  | [] => (s, true)
  | f :: rest =>
    match fsCopyFile s.fs f.filepath (newFolderPath ++ [f.filename]) with
    | none => (s, false)
    | some fs2 =>
      let row : FileMeta :=
        { id := freshFileId s.db, filename := f.filename,
          filepath := newFolderPath ++ [f.filename], mimetype := f.mimetype, size := f.size,
          is_public := false, share_token := none, share_expiry := none, uploaded_at := now,
          folder_id := some newFolderId, owner_id := uid }
      copyFilesInto uid now newFolderId newFolderPath rest
        { db := { s.db with files := s.db.files ++ [row] }, fs := fs2 }

/-- copy_folder_recursive (item_management_service.py 258-332): unique name,
new folder row, physical directory (path from the destination parent's own
name only, looked up by id alone — a miss raises inside the swallowing inner
`except`, leaving the already-added folder row behind), contained files, then
the subfolders.  Any swallowed failure aborts just this subtree. -/
def copyFolderRec (root : String) (uid now : Nat) : Nat → Folder → Option Nat → State → State
  | 0, _, _, s => s
  | fuel + 1, src, destParent, s =>
    let destNames := (s.db.folders.filter (fun y => y.parent_id == destParent)).map (·.name)
    let newName := copyStoredFolderName destNames src.name
    let newId := freshFolderId s.db
    let newFolder : Folder :=
      { id := newId, name := newName, parent_id := destParent, owner_id := uid, created_at := now }
    let sAdded : State := { s with db := { s.db with folders := s.db.folders ++ [newFolder] } }
    let pathBase : Option (List String) :=
      match destParent with
      | some pid =>
        match sAdded.db.folders.find? (fun f => f.id == pid) with
        | some d => some [root, Nat.repr uid, d.name, newName]
        | none => none
      | none => some [root, Nat.repr uid, newName]
    match pathBase with
    | none => sAdded
    | some newFolderPath =>
      let s1 : State := { sAdded with fs := fsMakedirs sAdded.fs newFolderPath }
      let srcFiles := s1.db.files.filter (fun f => f.folder_id == some src.id)
      match copyFilesInto uid now newId newFolderPath srcFiles s1 with
      | (s2, false) => s2
      | (s2, true) =>
        let subs := s2.db.folders.filter (fun f => f.parent_id == some src.id)
        subs.foldl (fun acc sf => copyFolderRec root uid now fuel sf (some newId) acc) s2

/-- Body of copy_item (item_management_service.py 182-333). -/
def copyItemBody (root : String) (uid now : Nat) (req : CopyRequest) (s : State) :
    Except (Exc × State) State :=
  match resolveDest s.db uid req.destination_folder_id with
  | .error e => .error (e, s)
  | .ok dest =>
    if req.item_type == "file" then
      copyFileOp root uid now req.item_id req.destination_folder_id dest s
    else
      match findFolder s.db req.item_id uid with
      | none => .error (.http 404 "Folder not found", s)
      | some src =>
        .ok (copyFolderRec root uid now (s.db.folders.length + 1) src req.destination_folder_id s)

/-- copy_item's endpoint wrapper (item_management_service.py 338-342): every
exception, the 404s included, surfaces as a 500 after a rollback. -/
def copy_item (root : String) (uid now : Nat) (req : CopyRequest) (s : State) : Nat × State :=
  match copyItemBody root uid now req s with
  | .ok sOut => (200, sOut)
  | .error (_, sFail) => (500, { db := s.db, fs := sFail.fs })

/-- rename_item's path rewrite for descendants (item_management_service.py
411-426): every file row below the folder gets `filepath.replace(old, new)`;
for the paths this walk visits the replaced occurrence is the leading one, so
the substring replace acts as a prefix swap. -/
def updateFilePaths (oldPath newPath : List String) (folderId : Nat) (db : DB) : Nat → DB
  | 0 => db
  | fuel + 1 =>
    let db1 : DB :=
      { db with
        files := db.files.map
          (fun f =>
            if f.folder_id == some folderId then
              { f with filepath :=
                  if List.isPrefixOf oldPath f.filepath then newPath ++ f.filepath.drop oldPath.length
                  else f.filepath }
            else f) }
    let subs := db1.folders.filter (fun g => g.parent_id == some folderId)
    subs.foldl (fun d sf => updateFilePaths oldPath newPath sf.id d fuel) db1

/-- Body of rename_item (item_management_service.py 353-426): 404 when the
item is missing or foreign, 400 on a sibling name conflict (the conflict
queries carry no owner filter), then the disk rename and the row updates. -/
def renameItemBody (root : String) (uid : Nat) (req : RenameRequest) (s : State) :
    Except (Exc × State) State :=
  if req.item_type == "file" then
    match findFile s.db req.item_id uid with
    | none => .error (.http 404 "File not found", s)
    | some file =>
      if s.db.files.any (fun y =>
          y.folder_id == file.folder_id && y.filename == req.new_name && !(y.id == file.id)) then
        .error (.http 400 "A file with this name already exists", s)
      else
        let newFilepath := file.filepath.dropLast ++ [req.new_name]
        match fsMoveFile s.fs file.filepath newFilepath with
        | none => .error (.err "FileNotFoundError", s)
        | some fs2 =>
          .ok { db := { s.db with
                  files := updateFirst (fun y => y.id == file.id && y.owner_id == uid)
                    (fun y => { y with filename := req.new_name, filepath := newFilepath })
                    s.db.files },
                fs := fs2 }
  else
    match findFolder s.db req.item_id uid with
    | none => .error (.http 404 "Folder not found", s)
    | some folder =>
      if s.db.folders.any (fun y =>
          y.parent_id == folder.parent_id && y.name == req.new_name && !(y.id == folder.id)) then
        .error (.http 400 "A folder with this name already exists", s)
      else
        let oldPath : List String := [root, Nat.repr uid, folder.name]
        let newPath : List String := [root, Nat.repr uid, req.new_name]
        let fs1 := if fsExists s.fs oldPath then fsMoveTree s.fs oldPath newPath else s.fs
        let db1 : DB :=
          { s.db with
            folders := updateFirst (fun y => y.id == folder.id && y.owner_id == uid)
              (fun y => { y with name := req.new_name }) s.db.folders }
        .ok { db := updateFilePaths oldPath newPath folder.id db1 (s.db.folders.length + 1),
              fs := fs1 }

/-- rename_item's endpoint wrapper (item_management_service.py 432-436):
every exception, the 404s and 400s included, surfaces as a 500. -/
def rename_item (root : String) (uid : Nat) (req : RenameRequest) (s : State) : Nat × State :=
  match renameItemBody root uid req s with
  | .ok sOut => (200, sOut)
  | .error (_, sFail) => (500, { db := s.db, fs := sFail.fs })

/-- create_jwt_token (common_utils.py 20-28) as called by share_file with the
payload `{"file_id": id}` and `timedelta(hours=h)`: a well-formed signed
token whose `exp` claim is now + h hours. -/
def create_jwt_token (fileId now hours : Nat) : ShareToken :=
  { wellFormed := true, file_id := some fileId, exp := now + hours * 3600 }

/-- Body of share_file (file_management_service.py 127-143): 404 when the
file is missing or foreign; otherwise stamp token, expiry (now + requested
hours) and `is_public = True`, and return token and expiry. -/
def shareFileBody (uid now fileId hours : Nat) (db : DB) :
    Except Exc (ShareToken × Nat × DB) :=
  match findFile db fileId uid with
  | none => .error (.http 404 "File not found")
  | some file =>
    let expiry := now + hours * 3600
    let tok := create_jwt_token fileId now hours
    .ok (tok, expiry,
      { db with
        files := updateFirst (fun y => y.id == file.id && y.owner_id == uid)
          (fun y => { y with share_token := some tok, share_expiry := some expiry,
                             is_public := true }) db.files })

/-- share_file's endpoint wrapper (file_management_service.py 125, 144-146):
`except Exception` logs and swallows every exception — the 404 HTTPException
included — without re-raising, so the endpoint then returns Python None (an
HTTP 200 with a null body) and the session is never committed. -/
def share_file (uid now fileId hours : Nat) (db : DB) : Option (ShareToken × Nat) × DB :=
  match shareFileBody uid now fileId hours db with
  | .ok (tok, expiry, dbOut) => (some (tok, expiry), dbOut)
  | .error _ => (none, db)

/-- PyJWT's decode failures as get_shared_file can see them: a malformed or
badly signed token raises DecodeError; a structurally valid token whose `exp`
claim is not in the future raises ExpiredSignatureError (a subclass of
InvalidTokenError, not of DecodeError). -/
inductive JwtError where
  | decodeError
  | expiredSignatureError
deriving DecidableEq, Repr

/-- jwt.decode(token, SECRET_KEY, algorithms=["HS256"]): PyJWT verifies the
`exp` claim during decode and raises ExpiredSignatureError once it has
passed. -/
def jwtDecode (tok : ShareToken) (now : Nat) : Except JwtError ShareToken :=
  if !tok.wellFormed then .error .decodeError
  else if tok.exp ≤ now then .error .expiredSignatureError
  else .ok tok

/-- What the caller of GET /shared observes. -/
inductive SharedResult where
  | ok (file : FileMeta)
  | httpError (status : Nat) (detail : String)
  | unhandled (excName : String)
deriving DecidableEq, Repr

/-- get_shared_file (user_management_service.py 76-91): decode the token,
fetch the row that matches the embedded id, is public and whose share expiry
is still in the future; 404 when none matches.  Only `jwt.DecodeError` is
caught (becoming the 400); an ExpiredSignatureError escapes the handler
uncaught. -/
def get_shared_file (db : DB) (tok : ShareToken) (now : Nat) : SharedResult :=
  match jwtDecode tok now with
  | .error .decodeError => .httpError 400 "Invalid share token"
  | .error .expiredSignatureError => .unhandled "jwt.exceptions.ExpiredSignatureError"
  | .ok payload =>
    match payload.file_id with
    | none => .httpError 404 "File not found or share expired"
    | some fid =>
      match db.files.find? (fun f =>
          f.id == fid && f.is_public &&
          (match f.share_expiry with
           | some e => now < e
           | none => false)) with
      | some f => .ok f
      | none => .httpError 404 "File not found or share expired"

/-- The ancestor-name walk upload_file performs for a target folder
(file_management_service.py 45-49): parent links are followed by id alone
and a dangling link ends the walk. -/
def folderPathParts (folders : List Folder) : Option Folder → Nat → List String
  | none, _ => []
  | some f, 0 => [f.name]
  | some f, fuel + 1 => folderPathParts folders (nextParent folders f) fuel ++ [f.name]

/-- The storing half of upload_file (file_management_service.py 51-107),
after the target folder's ancestor-name chain `parts` has been resolved:
build the directory path, pick a collision-free name, write the bytes, infer
the MIME type from the final name (no fallback) and insert the row. -/
def uploadStore (root : String) (uid now : Nat) (folderId : Option Nat) (parts : List String)
    (origName : String) (payloadSize : Nat) (s : State) : FileMeta × State :=
  let folderPath : List String := root :: Nat.repr uid :: parts
  let fs1 := fsMakedirs s.fs folderPath
  let stored := uploadStoredFilename (uploadSiblingNames s.db uid folderId) origName
  let filePath := folderPath ++ [stored]
  let fs2 := fsWriteFile fs1 filePath payloadSize
  let row : FileMeta :=
    { id := freshFileId s.db, filename := stored, filepath := filePath,
      mimetype := guess_type stored, size := payloadSize, is_public := false,
      share_token := none, share_expiry := none, uploaded_at := now,
      folder_id := folderId, owner_id := uid }
  (row, { db := { s.db with files := s.db.files ++ [row] }, fs := fs2 })

/-- Body of upload_file (file_management_service.py 29-107): resolve the
target folder (404 when missing or foreign, an empty chain for the root),
then store. -/
def uploadBody (root : String) (uid now : Nat) (folderId : Option Nat) (origName : String)
    (payloadSize : Nat) (s : State) : Except (Exc × State) (FileMeta × State) :=
  match folderId with
  | none => .ok (uploadStore root uid now none [] origName payloadSize s)
  | some fid =>
    match findFolder s.db fid uid with
    | none => .error (.http 404 "Folder not found.", s)
    | some folder =>
      .ok (uploadStore root uid now (some fid)
        (folderPathParts s.db.folders (some folder) (s.db.folders.length + 1))
        origName payloadSize s)

/-- upload_file's endpoint wrapper (file_management_service.py 113-116):
`except Exception` re-raises everything — its own 404 included — as
HTTPException(400, ...); the session is closed uncommitted, so database
changes revert while filesystem writes persist. -/
def upload_file (root : String) (uid now : Nat) (folderId : Option Nat) (origName : String)
    (payloadSize : Nat) (s : State) : Nat × Option FileMeta × State :=
  match uploadBody root uid now folderId origName payloadSize s with
  | .ok (row, sOut) => (200, some row, sOut)
  | .error (_, sFail) => (400, none, { db := s.db, fs := sFail.fs })

/-- The mutable attributes of a User object (scripts/models/user_management.py
7-23); attributes an __init__ has not assigned yet hold Python None. -/
structure PyUser where
  username : Option String
  email : Option String
  hashed_password : Option String
  is_admin : Bool
  privilege : Option String
deriving DecidableEq, Repr

/-- User._sync_admin_status (user_management.py 22-23). -/
def syncAdminStatus (u : PyUser) : PyUser :=
  { u with is_admin := u.privilege == some "administrator" }

/-- Assignment to `User.privilege` with the `'set'` event listener
(user_management.py 25-27) attached: SQLAlchemy fires the listener before the
new value is stored, so `_sync_admin_status` reads the privilege the object
held before this assignment; only then is `privilege` set. -/
def setPrivilege (u : PyUser) (v : String) : PyUser :=
  { syncAdminStatus u with privilege := some v }

/-- User.__init__ (user_management.py 18-20) as create_user invokes it: the
declarative constructor assigns username, email, hashed_password, is_admin
and privilege in keyword order (the privilege assignment firing the
listener), then `_sync_admin_status()` runs once more. -/
def mkUser (username email hashed : String) (is_admin : Bool) (privilege : String) : PyUser :=
  let u0 : PyUser :=
    { username := none, email := none, hashed_password := none,
      is_admin := false, privilege := none }
  let u1 : PyUser :=
    { u0 with username := some username, email := some email,
              hashed_password := some hashed, is_admin := is_admin }
  syncAdminStatus (setPrivilege u1 privilege)

/-- UserUpdate (user_management.py 42-46): every field optional. -/
structure UserUpdate where
  username : Option String
  email : Option String
  is_admin : Option Bool
  privilege : Option String
deriving DecidableEq, Repr

/-- The field updates of edit_user (user_management_service.py 112-119):
`if user_update.username:` — a None or empty value leaves the field alone;
the privilege assignment goes through the listener. -/
def editUserApply (u : PyUser) (upd : UserUpdate) : PyUser :=
  let u1 := match upd.username with
            | some v => if v == "" then u else { u with username := some v }
            | none => u
  let u2 := match upd.email with
            | some v => if v == "" then u1 else { u1 with email := some v }
            | none => u1
  let u3 := match upd.is_admin with
            | some b => { u2 with is_admin := b }
            | none => u2
  match upd.privilege with
  | some v => if v == "" then u3 else setPrivilege u3 v
  | none => u3

/-- The grouping key of the duplicate-file queries (folder_management.py
155-198): same owner, same folder, same filename, same MIME type as `x`. -/
def fileSameGroup (uid : Nat) (fid : Option Nat) (x y : FileMeta) : Bool :=
  y.owner_id == uid && y.folder_id == fid && y.filename == x.filename && y.mimetype == x.mimetype

/-- The rows the duplicate-file subquery groups with `x`. -/
def fileGroup (uid : Nat) (fid : Option Nat) (files : List FileMeta) (x : FileMeta) : List FileMeta :=
  files.filter (fileSameGroup uid fid x)

/-- The row `order_by(uploaded_at)` puts first in a group: the earliest
upload timestamp, position in the table breaking ties. -/
def earliestFile : List FileMeta → Option FileMeta
  | [] => none
  | x :: xs =>
    match earliestFile xs with
    | none => some x
    | some y => if y.uploaded_at < x.uploaded_at then some y else some x

/-- Whether clean_directory keeps file row `x` when cleaning folder `fid`:
rows outside the folder (or owner) are untouched; inside it, a row of a
group with more than one member is deleted unless it is the group's first by
upload time.  The join `FileMetadata.mimetype == subquery.c.mimetype`
compares two SQL columns, and `NULL = NULL` is not true, so a group whose
MIME type is NULL never joins and is never deleted (`x.mimetype.isSome`). -/
def keepFile (uid : Nat) (fid : Option Nat) (files : List FileMeta) (x : FileMeta) : Bool :=
  if x.owner_id == uid && x.folder_id == fid then
    let grp := fileGroup uid fid files x
    if 1 < grp.length && x.mimetype.isSome then decide (earliestFile grp = some x) else true
  else true

/-- The duplicate-file pass of clean_folder_recursive for one folder
(folder_management.py 155-201). -/
def cleanFilesInFolder (uid : Nat) (fid : Option Nat) (files : List FileMeta) : List FileMeta :=
  files.filter (keepFile uid fid files)

/-- The grouping key of the duplicate-folder queries (folder_management.py
204-247): same owner, same parent, same name as `x`. -/
def folderSameGroup (uid : Nat) (fid : Option Nat) (x y : Folder) : Bool :=
  y.owner_id == uid && y.parent_id == fid && y.name == x.name

/-- The rows the duplicate-folder subquery groups with `x`. -/
def folderGroup (uid : Nat) (fid : Option Nat) (folders : List Folder) (x : Folder) : List Folder :=
  folders.filter (folderSameGroup uid fid x)

/-- The row `order_by(created_at)` puts first in a folder group. -/
def earliestFolder : List Folder → Option Folder
  | [] => none
  | x :: xs =>
    match earliestFolder xs with
    | none => some x
    | some y => if y.created_at < x.created_at then some y else some x

/-- Whether clean_directory keeps folder row `x` when cleaning folder `fid`
(the name column is not nullable, so no NULL-join subtlety here). -/
def keepFolder (uid : Nat) (fid : Option Nat) (folders : List Folder) (x : Folder) : Bool :=
  if x.owner_id == uid && x.parent_id == fid then
    let grp := folderGroup uid fid folders x
    if 1 < grp.length then decide (earliestFolder grp = some x) else true
  else true

/-- The duplicate-folder pass of clean_folder_recursive for one folder. -/
def cleanFoldersInFolder (uid : Nat) (fid : Option Nat) (folders : List Folder) : List Folder :=
  folders.filter (keepFolder uid fid folders)

/-- The subfolder query that drives the recursion (folder_management.py
250-260): children of `fid` owned by the caller, read after the dedup
passes. -/
def childFolders (uid : Nat) (fid : Option Nat) (folders : List Folder) : List Folder :=
  folders.filter (fun f => f.owner_id == uid && f.parent_id == fid)

/-- clean_folder_recursive (folder_management.py 153-260): dedup the files of
the folder, dedup its subfolders, then recurse into every remaining
subfolder.  The Python recursion has no depth bound; `fuel` caps it, and the
theorems require it to exceed the folder-tree depth. -/
def cleanFolderRec (uid : Nat) : Nat → Option Nat → DB → DB
  | 0, _, db => db
  | fuel + 1, fid, db =>
    let db2 : DB :=
      { folders := cleanFoldersInFolder uid fid db.folders,
        files := cleanFilesInFolder uid fid db.files }
    (childFolders uid fid db2.folders).foldl
      (fun d sf => cleanFolderRec uid fuel (some sf.id) d) db2

/-- The clean_directory endpoint (folder_management.py 143-267): run the
recursion from the requested folder (or the root) and commit.  It issues only
database queries and deletes — no filesystem call appears in its body — so
the filesystem component passes through untouched. -/
def clean_directory (uid : Nat) (fid : Option Nat) (s : State) : State :=
  { s with db := cleanFolderRec uid (s.db.folders.length + 1) fid s.db }

/-- The folders a clean_directory run visits: the starting folder, then
recursively the children that survive the dedup passes (which, with unique
sibling names, are all of them). -/
def visitedFolders (uid : Nat) (folders : List Folder) : Nat → Option Nat → List (Option Nat)
  | 0, _ => []
  | fuel + 1, fid =>
    (childFolders uid fid folders).foldl
      (fun acc sf => visitedFolders uid folders fuel (some sf.id) ++ acc) [fid]

/-- Row `x` has the earliest upload timestamp of its (owner, folder,
filename, MIME type) group inside `files` — the claim's "the record with the
earliest upload timestamp". -/
def isEarliestInGroup (uid : Nat) (files : List FileMeta) (x : FileMeta) : Prop :=
  ∀ y ∈ files, fileSameGroup uid x.folder_id x y = true → x.uploaded_at ≤ y.uploaded_at

/-- Names along a folder's ancestor chain, root-most first (the chain the
spec's filesystem layout prescribes, and the chain get_folder_path in
common_utils.py 35-50 resolves): `none` when a parent link dangles or the
chain does not close within `fuel` steps. -/
def chainNames (folders : List Folder) : Option Nat → Nat → Option (List String)
  | none, _ => some []
  | some _, 0 => none
  | some i, fuel + 1 =>
    match folders.find? (fun f => f.id == i) with
    | none => none
    | some f => (chainNames folders f.parent_id fuel).map (fun rest => rest ++ [f.name])

/-- The spec's filesystem-layout invariant for one FileMetadata row: its
stored filepath is the storage root, the owner's id segment, the full chain
of ancestor folder names of its containing folder, then its filename. -/
def mirrorRow (root : String) (folders : List Folder) (x : FileMeta) : Bool :=
  match chainNames folders x.folder_id (folders.length + 1) with
  | some chain => x.filepath == root :: Nat.repr x.owner_id :: (chain ++ [x.filename])
  | none => false

/-- The layout invariant over a whole database. -/
def mirrorDB (root : String) (db : DB) : Prop :=
  ∀ x ∈ db.files, mirrorRow root db.folders x = true

instance (root : String) (db : DB) : Decidable (mirrorDB root db) :=
  inferInstanceAs (Decidable (∀ x ∈ db.files, mirrorRow root db.folders x = true))

/-! Concrete sample data the refutation and evaluation theorems run on. -/

/-- An empty database and filesystem. -/
def sampleEmpty : State := ⟨⟨[], []⟩, ⟨[], []⟩⟩

/-- A root-level file `a.txt` of user 1. -/
def fileA : FileMeta :=
  { id := 1, filename := "a.txt", filepath := ["st", "1", "a.txt"],
    mimetype := some "text/plain", size := 3, is_public := false, share_token := none,
    share_expiry := none, uploaded_at := 10, folder_id := none, owner_id := 1 }

/-- A root-level file `b.txt` of user 1, sibling of `fileA`. -/
def fileB : FileMeta :=
  { fileA with id := 2, filename := "b.txt", filepath := ["st", "1", "b.txt"], uploaded_at := 20 }

/-- Two sibling files, for the rename-conflict run. -/
def twoFilesState : State :=
  ⟨⟨[], [fileA, fileB]⟩, ⟨[["st", "1"]], [(fileA.filepath, 3), (fileB.filepath, 3)]⟩⟩

/-- Folder `A` of user 7, at the root. -/
def folderA : Folder := { id := 1, name := "A", parent_id := none, owner_id := 7, created_at := 0 }

/-- Folder `B` of user 7, inside `A`. -/
def folderB : Folder := { id := 2, name := "B", parent_id := some 1, owner_id := 7, created_at := 1 }

/-- The two nested folders, with their directories on disk. -/
def nestedFoldersState : State :=
  ⟨⟨[folderA, folderB], []⟩, ⟨[["st", "7", "A"], ["st", "7", "A", "B"]], []⟩⟩

/-- Claim C1.  For the four item operations the source raises the specific
HTTPException — 404 for a missing or foreign target or destination, 400 for
a rename collision — inside a `try` whose blanket `except Exception` clause
catches it, rolls back and re-raises `HTTPException(500, ...)`: the caller
receives 500 for every one of these conditions, never the 404 or 400 the
claim states.  Each pair below shows the body raising the specific error and
the endpoint answering 500 at that very input. -/
theorem item_ops_specific_errors_surface_as_500 :
    deleteItemBody "st" 1 ⟨"file", 5⟩ sampleEmpty
      = .error (.http 404 "File not found", sampleEmpty)
    ∧ (delete_item "st" 1 ⟨"file", 5⟩ sampleEmpty).1 = 500
    ∧ renameItemBody "st" 1 ⟨"file", 1, "b.txt"⟩ twoFilesState
      = .error (.http 400 "A file with this name already exists", twoFilesState)
    ∧ (rename_item "st" 1 ⟨"file", 1, "b.txt"⟩ twoFilesState).1 = 500
    ∧ moveItemBody "st" 1 ⟨"file", 1, some 9⟩ twoFilesState
      = .error (.http 404 "Destination folder not found", twoFilesState)
    ∧ (move_item "st" 1 ⟨"file", 1, some 9⟩ twoFilesState).1 = 500
    ∧ copyItemBody "st" 1 0 ⟨"file", 5, none⟩ sampleEmpty
      = .error (.http 404 "File not found", sampleEmpty)
    ∧ (copy_item "st" 1 0 ⟨"file", 5, none⟩ sampleEmpty).1 = 500 := by
  decide

/-- Claim C7.  Moving folder A into itself, or into its descendant B, is
detected by the ancestor walk and raises the 400 before any filesystem or
database mutation — but the blanket `except Exception` converts it into a
500.  The final state equals the initial state exactly (no mutation
persists), while the status the caller sees is 500, not the InvalidInput/400
of the claim. -/
theorem folder_self_move_rejected_without_mutation_but_as_500 :
    moveItemBody "st" 7 ⟨"folder", 1, some 1⟩ nestedFoldersState
      = .error (.http 400 "Cannot move a folder into itself or its subdirectories",
                nestedFoldersState)
    ∧ move_item "st" 7 ⟨"folder", 1, some 1⟩ nestedFoldersState = (500, nestedFoldersState)
    ∧ moveItemBody "st" 7 ⟨"folder", 1, some 2⟩ nestedFoldersState
      = .error (.http 400 "Cannot move a folder into itself or its subdirectories",
                nestedFoldersState)
    ∧ move_item "st" 7 ⟨"folder", 1, some 2⟩ nestedFoldersState = (500, nestedFoldersState) := by
  decide

/-- A file user 1 shared at time 1000 for one hour. -/
def sharedTok : ShareToken := create_jwt_token 1 1000 1

/-- The shared file's row after share_file stamped it. -/
def sharedFile : FileMeta :=
  { fileA with is_public := true, share_token := some sharedTok, share_expiry := some 4600 }

/-- The database holding the shared file. -/
def sharedDB : DB := ⟨[], [sharedFile]⟩

/-- A token that does not decode. -/
def malformedTok : ShareToken := { wellFormed := false, file_id := some 1, exp := 4600 }

/-- A valid token whose embedded id matches no row. -/
def wrongIdTok : ShareToken := { wellFormed := true, file_id := some 99, exp := 4600 }

/-- Claim C3.  Within the expiry window the token retrieves the file, a
decode failure is a 400 and a lookup miss under a still-valid token is a
404 — but a token consulted after its expiry instant raises
ExpiredSignatureError inside jwt.decode, which the handler's
`except jwt.DecodeError` clause does not catch (ExpiredSignatureError is not
a DecodeError subclass): the caller gets an unhandled exception (a 500),
not the 404 the claim states, even though the file row still exists and is
owned. -/
theorem shared_file_expired_token_escapes_uncaught :
    get_shared_file sharedDB sharedTok 2000 = .ok sharedFile
    ∧ get_shared_file sharedDB malformedTok 2000 = .httpError 400 "Invalid share token"
    ∧ get_shared_file sharedDB wrongIdTok 2000
      = .httpError 404 "File not found or share expired"
    ∧ get_shared_file sharedDB sharedTok 8200
      = .unhandled "jwt.exceptions.ExpiredSignatureError"
    ∧ sharedFile ∈ sharedDB.files ∧ sharedFile.owner_id = 1 := by
  decide

/-- The database share_file runs on: one unshared file of user 1. -/
def unsharedDB : DB := ⟨[], [fileA]⟩

/-- The shared file's row as share_file leaves it at time 1000 for 24 hours. -/
def sharedOutFile : FileMeta :=
  { fileA with
    is_public := true
    share_token := some (create_jwt_token 1 1000 24)
    share_expiry := some 87400 }

/-- The same database after that successful share. -/
def sharedOutDB : DB := ⟨[], [sharedOutFile]⟩

/-- Claim C4.  The happy path behaves as claimed: token, `is_public = true`
and `share_expiry = now + hours` are stamped and returned.  But for a file
id that does not exist (or is foreign) the 404 the body raises is caught by
share_file's own argument-less `except Exception` clause, which logs and
falls through without re-raising: the caller receives a 200 with a null
body, never the 404 the claim states. -/
theorem share_file_missing_file_returns_none_not_404 :
    share_file 1 1000 1 24 unsharedDB = (some (create_jwt_token 1 1000 24, 87400), sharedOutDB)
    ∧ shareFileBody 1 1000 5 24 unsharedDB = .error (.http 404 "File not found")
    ∧ share_file 1 1000 5 24 unsharedDB = (none, unsharedDB) := by
  decide

/-- A user created with privilege "user". -/
def carolUser : PyUser := mkUser "carol" "c@x.io" "h" false "user"

/-- Claim C8.  At construction the explicit `_sync_admin_status()` call makes
the flag match the privilege whatever `is_admin` was supplied — but on a
later assignment the SQLAlchemy `'set'` listener fires before the new value
is stored, so the flag is recomputed from the privilege held before the
assignment: editing only the privilege to "administrator" leaves the flag
false, the privilege and flag now disagreeing. -/
theorem admin_flag_stale_after_privilege_assignment :
    (mkUser "alice" "a@x.io" "h" false "administrator").is_admin = true
    ∧ (mkUser "bob" "b@x.io" "h" true "user").is_admin = false
    ∧ carolUser.is_admin = false
    ∧ editUserApply carolUser ⟨none, none, none, some "administrator"⟩
      = { carolUser with privilege := some "administrator" }
    ∧ (editUserApply carolUser ⟨none, none, none, some "administrator"⟩).privilege
      = some "administrator"
    ∧ (editUserApply carolUser ⟨none, none, none, some "administrator"⟩).is_admin = false := by
  decide

/-- The rename loops return the first candidate, in counter order from the
starting index, that no existing row carries — provided some candidate in
the fuel window is free (always so in the running system: there are more
candidates than rows). -/
theorem firstFreshLoop_spec (cand : Nat → String) (taken : List String) :
    ∀ fuel start, (∃ k, start ≤ k ∧ k < start + fuel ∧ taken.contains (cand k) = false) →
    ∃ k, start ≤ k ∧ k < start + fuel ∧
      firstFreshLoop cand taken start fuel = cand k ∧
      taken.contains (cand k) = false ∧
      ∀ j, start ≤ j → j < k → taken.contains (cand j) = true := by
  intro fuel
  induction fuel with
  | zero =>
    intro start h
    obtain ⟨k, hk1, hk2, _⟩ := h
    omega
  | succ fuel ih =>
    intro start h
    by_cases hc : taken.contains (cand start) = true
    · have hnext : ∃ k, start + 1 ≤ k ∧ k < start + 1 + fuel ∧
          taken.contains (cand k) = false := by
        obtain ⟨k, hk1, hk2, hk3⟩ := h
        refine ⟨k, ?_, by omega, hk3⟩
        rcases Nat.lt_or_ge start k with h1 | h1
        · omega
        · have hks : k = start := by omega
          rw [hks, hc] at hk3
          cases hk3
      obtain ⟨k, hk1, hk2, hk3, hk4, hk5⟩ := ih (start + 1) hnext
      refine ⟨k, by omega, by omega, ?_, hk4, ?_⟩
      · simp only [firstFreshLoop]
        rw [if_pos hc]
        exact hk3
      · intro j hj1 hj2
        rcases Nat.lt_or_ge j (start + 1) with h2 | h2
        · have hjs : j = start := by omega
          rw [hjs]
          exact hc
        · exact hk5 j h2 hj2
    · have hc' : taken.contains (cand start) = false := by
        simpa using hc
      refine ⟨start, Nat.le_refl _, by omega, ?_, hc',
        fun j hj1 hj2 => absurd (Nat.lt_of_le_of_lt hj1 hj2) (Nat.lt_irrefl _)⟩
      simp only [firstFreshLoop]
      rw [if_neg hc]

/-- Claim C5.  For every upload into a folder that, for the same owner,
already contains a file with the incoming name, the stored filename is the
base name with `_k` appended before the extension for the first counter
value `k ≥ 1` that does not collide (base name and extension preserved by
construction of `uploadCandidate`).  The free-candidate hypothesis is always
satisfiable, there being more candidates in the window than sibling rows. -/
theorem upload_auto_rename_first_free_counter
    (root : String) (uid now payloadSize : Nat) (folderId : Option Nat) (name : String)
    (s : State)
    (hres : folderId = none ∨ ∃ fid f, folderId = some fid ∧ findFolder s.db fid uid = some f)
    (hdup : (uploadSiblingNames s.db uid folderId).contains name = true)
    (hfree : ∃ k, 1 ≤ k ∧ k < 1 + ((uploadSiblingNames s.db uid folderId).length + 1) ∧
      (uploadSiblingNames s.db uid folderId).contains
        (uploadCandidate (splitext name).1 (splitext name).2 k) = false) :
    ∃ row sOut k,
      uploadBody root uid now folderId name payloadSize s = .ok (row, sOut) ∧
      sOut.db.files = s.db.files ++ [row] ∧ 1 ≤ k ∧
      row.filename = uploadCandidate (splitext name).1 (splitext name).2 k ∧
      (uploadSiblingNames s.db uid folderId).contains row.filename = false ∧
      (∀ j, 1 ≤ j → j < k →
        (uploadSiblingNames s.db uid folderId).contains
          (uploadCandidate (splitext name).1 (splitext name).2 j) = true) := by
  obtain ⟨k, hk1, hk2, hk3, hk4, hk5⟩ :=
    firstFreshLoop_spec (uploadCandidate (splitext name).1 (splitext name).2)
      (uploadSiblingNames s.db uid folderId) ((uploadSiblingNames s.db uid folderId).length + 1)
      1 hfree
  have hstored : uploadStoredFilename (uploadSiblingNames s.db uid folderId) name
      = uploadCandidate (splitext name).1 (splitext name).2 k := by
    unfold uploadStoredFilename
    rw [if_pos hdup]
    exact hk3
  have hmain : ∀ parts : List String,
      ∃ row sOut,
        uploadStore root uid now folderId parts name payloadSize s = (row, sOut) ∧
        sOut.db.files = s.db.files ++ [row] ∧
        row.filename = uploadCandidate (splitext name).1 (splitext name).2 k := by
    intro parts
    exact ⟨_, _, rfl, rfl, hstored⟩
  rcases hres with hnone | ⟨fid, f, hfid, hfind⟩
  · subst hnone
    obtain ⟨row, sOut, hstore, hfiles, hname⟩ := hmain []
    refine ⟨row, sOut, k, ?_, hfiles, hk1, hname, ?_, hk5⟩
    · simp only [uploadBody]
      rw [hstore]
    · rw [hname]
      exact hk4
  · subst hfid
    obtain ⟨row, sOut, hstore, hfiles, hname⟩ :=
      hmain (folderPathParts s.db.folders (some f) (s.db.folders.length + 1))
    refine ⟨row, sOut, k, ?_, hfiles, hk1, hname, ?_, hk5⟩
    · simp only [uploadBody, hfind]
      rw [hstore]
    · rw [hname]
      exact hk4

/-- A folder already holding `report.pdf` for user 1. -/
def reportFile : FileMeta :=
  { id := 1, filename := "report.pdf", filepath := ["st", "1", "report.pdf"],
    mimetype := some "application/pdf", size := 9, is_public := false, share_token := none,
    share_expiry := none, uploaded_at := 0, folder_id := none, owner_id := 1 }

/-- The state the witness upload runs on. -/
def reportState : State :=
  ⟨⟨[], [reportFile]⟩, ⟨[["st", "1"]], [(reportFile.filepath, 9)]⟩⟩

/-- Witness for claim C5: a second upload of `report.pdf` beside an existing
`report.pdf` is stored as `report_1.pdf`, a third as `report_2.pdf`, and the
general theorem applies to the concrete state. -/
theorem upload_auto_rename_witness :
    uploadStoredFilename ["report.pdf"] "report.pdf" = "report_1.pdf"
    ∧ uploadStoredFilename ["report.pdf", "report_1.pdf"] "report.pdf" = "report_2.pdf"
    ∧ (∃ row sOut k,
        uploadBody "st" 1 0 none "report.pdf" 9 reportState = .ok (row, sOut) ∧
        sOut.db.files = reportState.db.files ++ [row] ∧ 1 ≤ k ∧
        row.filename = uploadCandidate (splitext "report.pdf").1 (splitext "report.pdf").2 k ∧
        (uploadSiblingNames reportState.db 1 none).contains row.filename = false ∧
        (∀ j, 1 ≤ j → j < k →
          (uploadSiblingNames reportState.db 1 none).contains
            (uploadCandidate (splitext "report.pdf").1 (splitext "report.pdf").2 j) = true)) :=
  ⟨by decide, by decide,
    upload_auto_rename_first_free_counter "st" 1 0 9 none "report.pdf" reportState
      (Or.inl rfl) (by decide) ⟨1, by decide, by decide, by decide⟩⟩

/-- Creating directories never touches the file entries. -/
theorem fsMakedirs_files (fs : FS) (p : List String) : (fsMakedirs fs p).files = fs.files := by
  unfold fsMakedirs
  split <;> rfl

/-- Reduction of fsCopyFile when the source exists. -/
theorem fsCopyFile_ok (fs : FS) (src dst : List String) (e : List String × Nat)
    (he : fs.files.find? (·.1 == src) = some e) :
    fsCopyFile fs src dst
      = some { fs with files := (dst, e.2) :: (fs.files.filter (fun q => !(q.1 == dst))) } := by
  unfold fsCopyFile
  rw [he]

/-- The size of a file entry just placed at the head. -/
theorem fsGetSize_head (fs : FS) (dst : List String) (n : Nat) (rest : List (List String × Nat)) :
    fsGetSize { fs with files := (dst, n) :: rest } dst = some n := by
  simp [fsGetSize]

/-- Reduction of copyFileOp when the source row and its on-disk bytes exist:
the endpoint succeeds, appending exactly one row whose name went through
copyStoredFilename, whose public flag is false and whose folder is the
destination. -/
theorem copyFileOp_ok (root : String) (uid now fileId : Nat) (destId : Option Nat)
    (dest : Option Folder) (s : State) (file : FileMeta) (e : List String × Nat)
    (hfile : findFile s.db fileId uid = some file)
    (he : s.fs.files.find? (·.1 == file.filepath) = some e) :
    ∃ sOut row,
      copyFileOp root uid now fileId destId dest s = .ok sOut ∧
      sOut.db.files = s.db.files ++ [row] ∧
      row.filename = copyStoredFilename (copySiblingNames s.db destId) file.filename ∧
      row.is_public = false ∧ row.folder_id = destId := by
  rcases dest with _ | d
  · simp only [copyFileOp, hfile]
    rw [fsCopyFile_ok _ _ _ e (by rw [fsMakedirs_files]; exact he)]
    simp only [fsGetSize_head]
    exact ⟨_, _, rfl, rfl, rfl, rfl, rfl⟩
  · simp only [copyFileOp, hfile]
    rw [fsCopyFile_ok _ _ _ e (by rw [fsMakedirs_files]; exact he)]
    simp only [fsGetSize_head]
    exact ⟨_, _, rfl, rfl, rfl, rfl, rfl⟩

/-- Claim C6.  For every file copy whose destination already contains a
same-named file, the new row's name is the first non-colliding candidate of
the sequence `base_copy.ext`, `base_copy_1.ext`, `base_copy_2.ext`, ...
(`copyCandidate k` for the least free `k`), and the copied row's public flag
is reset to false.  The free-candidate hypothesis is always satisfiable,
there being more candidates in the window than destination rows. -/
theorem copy_auto_rename_first_free_and_public_reset
    (root : String) (uid now : Nat) (req : CopyRequest) (s : State) (file : FileMeta)
    (e : List String × Nat)
    (htype : req.item_type = "file")
    (hdest : req.destination_folder_id = none ∨
      ∃ i f, req.destination_folder_id = some i ∧ findFolder s.db i uid = some f)
    (hfile : findFile s.db req.item_id uid = some file)
    (he : s.fs.files.find? (·.1 == file.filepath) = some e)
    (hdup : (copySiblingNames s.db req.destination_folder_id).contains file.filename = true)
    (hfree : ∃ k, k < (copySiblingNames s.db req.destination_folder_id).length + 1 ∧
      (copySiblingNames s.db req.destination_folder_id).contains
        (copyCandidate (splitext file.filename).1 (splitext file.filename).2 k) = false) :
    ∃ sOut row k,
      copy_item root uid now req s = (200, sOut) ∧
      sOut.db.files = s.db.files ++ [row] ∧
      row.is_public = false ∧
      row.folder_id = req.destination_folder_id ∧
      row.filename = copyCandidate (splitext file.filename).1 (splitext file.filename).2 k ∧
      (copySiblingNames s.db req.destination_folder_id).contains row.filename = false ∧
      (∀ j, j < k → (copySiblingNames s.db req.destination_folder_id).contains
        (copyCandidate (splitext file.filename).1 (splitext file.filename).2 j) = true) := by
  obtain ⟨it, iid, did⟩ := req
  dsimp only at htype hdest hfile hdup hfree ⊢
  subst htype
  obtain ⟨k0, hk0a, hk0b⟩ := hfree
  obtain ⟨k, _, _, hk3, hk4, hk5⟩ :=
    firstFreshLoop_spec (copyCandidate (splitext file.filename).1 (splitext file.filename).2)
      (copySiblingNames s.db did) ((copySiblingNames s.db did).length + 1) 0
      ⟨k0, Nat.zero_le _, by omega, hk0b⟩
  have hstored : copyStoredFilename (copySiblingNames s.db did) file.filename
      = copyCandidate (splitext file.filename).1 (splitext file.filename).2 k := by
    unfold copyStoredFilename
    rw [if_pos hdup]
    exact hk3
  have hk5' : ∀ j, j < k → (copySiblingNames s.db did).contains
      (copyCandidate (splitext file.filename).1 (splitext file.filename).2 j) = true :=
    fun j hj => hk5 j (Nat.zero_le _) hj
  rcases hdest with hnone | ⟨i, f, hi, hf⟩
  · subst hnone
    obtain ⟨sOut, row, hop, hfiles, hname, hpub, hfolder⟩ :=
      copyFileOp_ok root uid now iid none none s file e hfile he
    refine ⟨sOut, row, k, ?_, hfiles, hpub, hfolder, ?_, ?_, hk5'⟩
    · simp [copy_item, copyItemBody, resolveDest, hop]
    · rw [hname, hstored]
    · rw [hname, hstored]
      exact hk4
  · subst hi
    obtain ⟨sOut, row, hop, hfiles, hname, hpub, hfolder⟩ :=
      copyFileOp_ok root uid now iid (some i) (some f) s file e hfile he
    refine ⟨sOut, row, k, ?_, hfiles, hpub, hfolder, ?_, ?_, hk5'⟩
    · simp [copy_item, copyItemBody, resolveDest, hf, hop]
    · rw [hname, hstored]
    · rw [hname, hstored]
      exact hk4

/-- A destination already holding `notes.txt` for user 1; the source file is
public so the reset to non-public is visible. -/
def notesFile : FileMeta :=
  { id := 1, filename := "notes.txt", filepath := ["st", "1", "notes.txt"],
    mimetype := some "text/plain", size := 5, is_public := true, share_token := none,
    share_expiry := none, uploaded_at := 0, folder_id := none, owner_id := 1 }

/-- The state the witness copy runs on. -/
def notesState : State :=
  ⟨⟨[], [notesFile]⟩, ⟨[["st", "1"]], [(notesFile.filepath, 5)]⟩⟩

/-- Witness for claim C6: copying `notes.txt` beside an existing `notes.txt`
yields `notes_copy.txt`, a further copy yields `notes_copy_1.txt`, and the
general theorem applies to the concrete state. -/
theorem copy_auto_rename_witness :
    copyStoredFilename ["notes.txt"] "notes.txt" = "notes_copy.txt"
    ∧ copyStoredFilename ["notes.txt", "notes_copy.txt"] "notes.txt" = "notes_copy_1.txt"
    ∧ (∃ sOut row k,
        copy_item "st" 1 0 ⟨"file", 1, none⟩ notesState = (200, sOut) ∧
        sOut.db.files = notesState.db.files ++ [row] ∧
        row.is_public = false ∧
        row.folder_id = none ∧
        row.filename = copyCandidate (splitext "notes.txt").1 (splitext "notes.txt").2 k ∧
        (copySiblingNames notesState.db none).contains row.filename = false ∧
        (∀ j, j < k → (copySiblingNames notesState.db none).contains
          (copyCandidate (splitext "notes.txt").1 (splitext "notes.txt").2 j) = true)) :=
  ⟨by decide, by decide,
    copy_auto_rename_first_free_and_public_reset "st" 1 0 ⟨"file", 1, none⟩ notesState notesFile
      (notesFile.filepath, 5) rfl (Or.inl rfl) (by decide) (by decide) (by decide)
      ⟨0, by decide, by decide⟩⟩

/-- Reduction of fsMoveFile when the source exists. -/
theorem fsMoveFile_ok (fs : FS) (src dst : List String) (e : List String × Nat)
    (he : fs.files.find? (·.1 == src) = some e) :
    fsMoveFile fs src dst
      = some { fs with
          files := (dst, e.2) :: (fs.files.filter (fun q => !(q.1 == src) && !(q.1 == dst))) } := by
  unfold fsMoveFile
  rw [he]

/-- Elements of updateFirst: either an untouched element of the list, or the
update of the element find? returns. -/
theorem mem_updateFirst_of_find? (p : α → Bool) (g : α → α) :
    ∀ (l : List α) (a : α), l.find? p = some a →
      ∀ x ∈ updateFirst p g l, x ∈ l ∨ x = g a := by
  intro l
  induction l with
  | nil => intro a ha x hx; cases hx
  | cons y ys ih =>
    intro a ha x hx
    by_cases hp : p y = true
    · rw [List.find?_cons_of_pos _ hp] at ha
      rw [updateFirst, if_pos hp] at hx
      rcases List.mem_cons.mp hx with hx | hx
      · right
        rw [hx, Option.some_inj.mp ha]
      · exact Or.inl (List.mem_cons_of_mem _ hx)
    · rw [List.find?_cons_of_neg _ hp] at ha
      rw [updateFirst, if_neg hp] at hx
      rcases List.mem_cons.mp hx with hx | hx
      · exact Or.inl (hx ▸ List.mem_cons_self _ _)
      · rcases ih a ha x hx with h | h
        · exact Or.inl (List.mem_cons_of_mem _ h)
        · exact Or.inr h

/-- What a successful findFile lookup guarantees. -/
theorem findFile_props (db : DB) (fileId uid : Nat) (file : FileMeta)
    (h : findFile db fileId uid = some file) :
    file ∈ db.files ∧ file.id = fileId ∧ file.owner_id = uid := by
  have hmem := List.mem_of_find?_eq_some h
  have hp := List.find?_some h
  simp only [Bool.and_eq_true, beq_iff_eq] at hp
  exact ⟨hmem, hp.1, hp.2⟩

/-- What a successful findFolder lookup guarantees. -/
theorem findFolder_props (db : DB) (folderId uid : Nat) (d : Folder)
    (h : findFolder db folderId uid = some d) :
    d ∈ db.folders ∧ d.id = folderId ∧ d.owner_id = uid := by
  have hmem := List.mem_of_find?_eq_some h
  have hp := List.find?_some h
  simp only [Bool.and_eq_true, beq_iff_eq] at hp
  exact ⟨hmem, hp.1, hp.2⟩

/-- With folder ids unique, the id-only lookup the ancestor-chain walk uses
returns the folder itself. -/
theorem findById_eq_of_mem (folders : List Folder) (d : Folder) (i : Nat)
    (hids : ∀ g1 ∈ folders, ∀ g2 ∈ folders, g1.id = g2.id → g1 = g2)
    (hd : d ∈ folders) (hdi : d.id = i) :
    folders.find? (fun f => f.id == i) = some d := by
  have hsome : (folders.find? (fun f => f.id == i)).isSome = true := by
    rw [List.find?_isSome]
    exact ⟨d, hd, by simp [hdi]⟩
  obtain ⟨g, hg⟩ := Option.isSome_iff_exists.mp hsome
  have hgmem := List.mem_of_find?_eq_some hg
  have hgp := List.find?_some hg
  simp only [beq_iff_eq] at hgp
  rw [hg, hids g hgmem d hd (hgp.trans hdi.symm)]

/-- Reduction of moveFileOp when the source row and its on-disk bytes exist:
the updated row takes the new path and the destination folder id, all other
rows and the folder table are untouched. -/
theorem moveFileOp_ok (root : String) (uid fileId : Nat) (destId : Option Nat)
    (dest : Option Folder) (s : State) (file : FileMeta) (e : List String × Nat)
    (hfile : findFile s.db fileId uid = some file)
    (he : s.fs.files.find? (·.1 == file.filepath) = some e) :
    ∃ sOut, moveFileOp root uid fileId destId dest s = .ok sOut
      ∧ sOut.db.folders = s.db.folders
      ∧ sOut.db.files = updateFirst (fun y => y.id == file.id && y.owner_id == uid)
          (fun y => { y with
            filepath := match dest with
              | some d => [root, Nat.repr uid, d.name, file.filename]
              | none => [root, Nat.repr uid, file.filename],
            folder_id := destId }) s.db.files := by
  rcases dest with _ | d
  · simp only [moveFileOp, hfile]
    rw [fsMoveFile_ok _ _ _ e (by rw [fsMakedirs_files]; exact he)]
    exact ⟨_, rfl, rfl, rfl⟩
  · simp only [moveFileOp, hfile]
    rw [fsMoveFile_ok _ _ _ e (by rw [fsMakedirs_files]; exact he)]
    exact ⟨_, rfl, rfl, rfl⟩

/-- Boolean form of isEarliestInGroup, over the rows the queries range on. -/
def survivorB (uid : Nat) (files : List FileMeta) (x : FileMeta) : Bool :=
  files.all (fun y => !(fileSameGroup uid x.folder_id x y) || decide (x.uploaded_at ≤ y.uploaded_at))

/-- Whether a clean_directory run that has visited the folders of `C` deletes
row `x` (group membership read from the original table `files0`). -/
def delPredB (uid : Nat) (files0 : List FileMeta) (C : List (Option Nat)) (x : FileMeta) : Bool :=
  decide (x.folder_id ∈ C) && (x.owner_id == uid) && x.mimetype.isSome
    && !(survivorB uid files0 x)

/-- The file table after cleaning the folders of `C`. -/
def cleanBySet (uid : Nat) (files0 : List FileMeta) (C : List (Option Nat))
    (files : List FileMeta) : List FileMeta :=
  files.filter (fun x => !(delPredB uid files0 C x))

theorem survivorB_iff (uid : Nat) (files : List FileMeta) (x : FileMeta) :
    survivorB uid files x = true ↔ isEarliestInGroup uid files x := by
  unfold survivorB isEarliestInGroup
  rw [List.all_eq_true]
  constructor
  · intro h y hy hg
    have := h y hy
    rw [hg] at this
    simpa using this
  · intro h y hy
    by_cases hg : fileSameGroup uid x.folder_id x y = true
    · simp [hg, h y hy hg]
    · simp only [Bool.or_eq_true, Bool.not_eq_true']
      exact Or.inl (by simpa using hg)

theorem earliestFile_eq_none (l : List FileMeta) : earliestFile l = none ↔ l = [] := by
  cases l with
  | nil => simp [earliestFile]
  | cons x xs =>
    rw [earliestFile]
    cases h : earliestFile xs
    · simp
    · simp only []
      split <;> simp

/-- earliestFile returns a member that is minimal by upload time. -/
theorem earliestFile_mem_min : ∀ (l : List FileMeta) (m : FileMeta),
    earliestFile l = some m → m ∈ l ∧ ∀ y ∈ l, m.uploaded_at ≤ y.uploaded_at := by
  intro l
  induction l with
  | nil => intro m h; cases h
  | cons x xs ih =>
    intro m h
    rw [earliestFile] at h
    cases hxs : earliestFile xs with
    | none =>
      rw [hxs] at h
      dsimp only at h
      obtain rfl : x = m := Option.some_inj.mp h
      have hnil : xs = [] := (earliestFile_eq_none xs).mp hxs
      subst hnil
      refine ⟨List.mem_cons_self _ _, ?_⟩
      intro y hy
      rcases List.mem_cons.mp hy with rfl | hy
      · exact Nat.le_refl _
      · cases hy
    | some y0 =>
      rw [hxs] at h
      dsimp only at h
      obtain ⟨hy0mem, hy0min⟩ := ih y0 hxs
      by_cases hlt : y0.uploaded_at < x.uploaded_at
      · rw [if_pos hlt] at h
        obtain rfl : y0 = m := Option.some_inj.mp h
        refine ⟨List.mem_cons_of_mem _ hy0mem, ?_⟩
        intro y hy
        rcases List.mem_cons.mp hy with rfl | hy
        · exact Nat.le_of_lt hlt
        · exact hy0min y hy
      · rw [if_neg hlt] at h
        obtain rfl : x = m := Option.some_inj.mp h
        refine ⟨List.mem_cons_self _ _, ?_⟩
        intro y hy
        rcases List.mem_cons.mp hy with rfl | hy
        · exact Nat.le_refl _
        · exact Nat.le_trans (Nat.le_of_not_lt hlt) (hy0min y hy)

/-- With pairwise-distinct timestamps the minimal member is what earliestFile
returns. -/
theorem earliestFile_eq_of_min (l : List FileMeta) (x : FileMeta)
    (hdist : ∀ y ∈ l, ∀ z ∈ l, y.uploaded_at = z.uploaded_at → y = z)
    (hx : x ∈ l) (hmin : ∀ y ∈ l, x.uploaded_at ≤ y.uploaded_at) :
    earliestFile l = some x := by
  cases hml : earliestFile l with
  | none =>
    rw [(earliestFile_eq_none l).mp hml] at hx
    cases hx
  | some m =>
    obtain ⟨hmem, hmins⟩ := earliestFile_mem_min l m hml
    rw [hdist m hmem x hx (Nat.le_antisymm (hmins x hx) (hmin m hmem))]

/-- A filter whose predicate singles out one element of a duplicate-free list
returns exactly that element. -/
theorem filter_eq_singleton_of_unique (p : α → Bool) :
    ∀ (l : List α) (x : α), l.Nodup → x ∈ l → p x = true →
      (∀ y ∈ l, p y = true → y = x) → l.filter p = [x] := by
  intro l
  induction l with
  | nil => intro x _ hx _ _; cases hx
  | cons z zs ih =>
    intro x hnd hx hpx huniq
    rw [List.nodup_cons] at hnd
    by_cases hpz : p z = true
    · have hzx : z = x := huniq z (List.mem_cons_self _ _) hpz
      subst hzx
      rw [List.filter_cons_of_pos hpz]
      have hzs : ∀ y ∈ zs, ¬ p y = true := by
        intro y hy hpy
        exact hnd.1 ((huniq y (List.mem_cons_of_mem _ hy) hpy) ▸ hy)
      rw [List.filter_eq_nil_iff.mpr hzs]
    · have hxz : x ≠ z := fun h => hpz (h ▸ hpx)
      have hxzs : x ∈ zs := by
        rcases List.mem_cons.mp hx with h | h
        · exact (hxz h).elim
        · exact h
      rw [List.filter_cons_of_neg hpz]
      exact ih x hnd.2 hxzs hpx (fun y hy hpy => huniq y (List.mem_cons_of_mem _ hy) hpy)

/-- With sibling folder names unique, the duplicate-folder pass deletes
nothing. -/
theorem cleanFoldersInFolder_eq_self (uid : Nat) (fid : Option Nat) (folders : List Folder)
    (hnd : folders.Nodup)
    (hnames : ∀ f ∈ folders, ∀ g ∈ folders,
      f.owner_id = g.owner_id → f.parent_id = g.parent_id → f.name = g.name → f = g) :
    cleanFoldersInFolder uid fid folders = folders := by
  rw [cleanFoldersInFolder, List.filter_eq_self]
  intro x hx
  unfold keepFolder
  by_cases hguard : (x.owner_id == uid && x.parent_id == fid) = true
  · rw [if_pos hguard]
    simp only [Bool.and_eq_true, beq_iff_eq] at hguard
    have hgrp : folderGroup uid fid folders x = [x] := by
      apply filter_eq_singleton_of_unique _ folders x hnd hx
      · simp [folderSameGroup, hguard.1, hguard.2]
      · intro y hy hpy
        simp only [folderSameGroup, Bool.and_eq_true, beq_iff_eq] at hpy
        exact hnames y hy x hx (hpy.1.1.trans hguard.1.symm) (hpy.1.2.trans hguard.2.symm) hpy.2
    rw [hgrp]
    simp
  · rw [if_neg hguard]

/-- The survivor predicate of a row reads the same whichever group member
anchors the keys. -/
theorem survivorB_shift (uid : Nat) (files0 : List FileMeta) (x y : FileMeta)
    (_hyo : y.owner_id = x.owner_id) (hyf : y.folder_id = x.folder_id)
    (hyn : y.filename = x.filename) (hym : y.mimetype = x.mimetype) :
    (survivorB uid files0 y = true ↔
      ∀ z ∈ fileGroup uid x.folder_id files0 x, y.uploaded_at ≤ z.uploaded_at) := by
  rw [survivorB_iff]
  unfold isEarliestInGroup fileGroup
  constructor
  · intro h z hz
    have hz2 := List.mem_filter.mp hz
    apply h z hz2.1
    have hg := hz2.2
    simp only [fileSameGroup, Bool.and_eq_true, beq_iff_eq] at hg ⊢
    rw [hyf, hyn, hym]
    exact hg
  · intro h z hz hg
    apply h z
    refine List.mem_filter.mpr ⟨hz, ?_⟩
    simp only [fileSameGroup, Bool.and_eq_true, beq_iff_eq] at hg ⊢
    rw [hyf, hyn, hym] at hg
    exact hg

/-- Cleaning one more folder on a table already cleaned for the folder set
`C` equals cleaning the original table for `fid :: C`: the heart of the
clean_directory recursion argument. -/
theorem cleanFilesInFolder_step (uid : Nat) (fid : Option Nat) (files0 : List FileMeta)
    (C : List (Option Nat))
    (hnd : files0.Nodup)
    (htimes : ∀ x ∈ files0, ∀ y ∈ files0, x.owner_id = y.owner_id →
      x.folder_id = y.folder_id → x.filename = y.filename → x.mimetype = y.mimetype →
      x.uploaded_at = y.uploaded_at → x = y) :
    cleanFilesInFolder uid fid (cleanBySet uid files0 C files0)
      = cleanBySet uid files0 (fid :: C) files0 := by
  unfold cleanFilesInFolder cleanBySet
  rw [List.filter_filter]
  apply List.filter_congr
  intro x hx
  by_cases hguard : (x.owner_id == uid && x.folder_id == fid) = true
  · simp only [Bool.and_eq_true, beq_iff_eq] at hguard
    obtain ⟨howner, hfolder⟩ := hguard
    subst howner
    subst hfolder
    have hsg_self : fileSameGroup x.owner_id x.folder_id x x = true := by
      simp [fileSameGroup]
    have hgrp0mem : x ∈ fileGroup x.owner_id x.folder_id files0 x :=
      List.mem_filter.mpr ⟨hx, hsg_self⟩
    have hsg_props : ∀ y, fileSameGroup x.owner_id x.folder_id x y = true →
        y.owner_id = x.owner_id ∧ y.folder_id = x.folder_id ∧ y.filename = x.filename
          ∧ y.mimetype = x.mimetype := by
      intro y hy
      simp only [fileSameGroup, Bool.and_eq_true, beq_iff_eq] at hy
      exact ⟨hy.1.1.1, hy.1.1.2, hy.1.2, hy.2⟩
    have hsurv_iff : survivorB x.owner_id files0 x = true ↔
        ∀ z ∈ fileGroup x.owner_id x.folder_id files0 x, x.uploaded_at ≤ z.uploaded_at :=
      survivorB_shift x.owner_id files0 x x rfl rfl rfl rfl
    have hdist : ∀ y ∈ fileGroup x.owner_id x.folder_id files0 x,
        ∀ z ∈ fileGroup x.owner_id x.folder_id files0 x,
          y.uploaded_at = z.uploaded_at → y = z := by
      intro y hy z hz ht
      have hy2 := List.mem_filter.mp hy
      have hz2 := List.mem_filter.mp hz
      obtain ⟨hyo, hyf, hyn, hym⟩ := hsg_props y hy2.2
      obtain ⟨hzo, hzf, hzn, hzm⟩ := hsg_props z hz2.2
      exact htimes y hy2.1 z hz2.1 (hyo.trans hzo.symm) (hyf.trans hzf.symm)
        (hyn.trans hzn.symm) (hym.trans hzm.symm) ht
    by_cases hmime : x.mimetype.isSome = true
    · by_cases hC : x.folder_id ∈ C
      · by_cases hsurv : survivorB x.owner_id files0 x = true
        · have hdelC : delPredB x.owner_id files0 C x = false := by
            simp [delPredB, hsurv]
          have hdelCons : delPredB x.owner_id files0 (x.folder_id :: C) x = false := by
            simp [delPredB, hsurv]
          rw [hdelC, hdelCons, Bool.not_false, Bool.and_true]
          unfold keepFile
          rw [if_pos (by simp)]
          have hgrp : fileGroup x.owner_id x.folder_id
              (List.filter (fun y => !delPredB x.owner_id files0 C y) files0) x = [x] := by
            unfold fileGroup
            rw [List.filter_filter]
            apply filter_eq_singleton_of_unique _ files0 x hnd hx
            · simp only [Bool.and_eq_true]
              exact ⟨hsg_self, by simp [hdelC]⟩
            · intro y hy hpy
              simp only [Bool.and_eq_true] at hpy
              obtain ⟨hysg, hydel⟩ := hpy
              obtain ⟨hyo, hyf, hyn, hym⟩ := hsg_props y hysg
              have hymem : y ∈ fileGroup x.owner_id x.folder_id files0 x :=
                List.mem_filter.mpr ⟨hy, hysg⟩
              have hysurv : survivorB x.owner_id files0 y = true := by
                by_contra hns
                have hns2 : survivorB x.owner_id files0 y = false := by simpa using hns
                have : delPredB x.owner_id files0 C y = true := by
                  simp [delPredB, hns2, hyf, hC, hyo, hym, hmime]
                simp [this] at hydel
              have hymin := (survivorB_shift x.owner_id files0 x y hyo hyf hyn hym).mp hysurv
              have hxmin := hsurv_iff.mp hsurv
              exact hdist y hymem x hgrp0mem
                (Nat.le_antisymm (hymin x hgrp0mem) (hxmin y hymem))
          rw [hgrp]
          simp
        · have hs2 : survivorB x.owner_id files0 x = false := by simpa using hsurv
          have hdelC : delPredB x.owner_id files0 C x = true := by
            simp [delPredB, hs2, hmime, hC]
          have hdelCons : delPredB x.owner_id files0 (x.folder_id :: C) x = true := by
            simp [delPredB, hs2, hmime]
          rw [hdelC, hdelCons]
          simp
      · have hgrpfull : fileGroup x.owner_id x.folder_id
            (List.filter (fun y => !delPredB x.owner_id files0 C y) files0) x
              = fileGroup x.owner_id x.folder_id files0 x := by
          unfold fileGroup
          rw [List.filter_filter]
          apply List.filter_congr
          intro y hy
          by_cases hysg : fileSameGroup x.owner_id x.folder_id x y = true
          · obtain ⟨hyo, hyf, hyn, hym⟩ := hsg_props y hysg
            have : delPredB x.owner_id files0 C y = false := by
              simp [delPredB, hyf, hC]
            simp [hysg, this]
          · have h0 : fileSameGroup x.owner_id x.folder_id x y = false := by simpa using hysg
            simp [h0]
        by_cases hsurv : survivorB x.owner_id files0 x = true
        · have hdelC : delPredB x.owner_id files0 C x = false := by
            simp [delPredB, hsurv]
          have hdelCons : delPredB x.owner_id files0 (x.folder_id :: C) x = false := by
            simp [delPredB, hsurv]
          rw [hdelC, hdelCons, Bool.not_false, Bool.and_true]
          unfold keepFile
          rw [if_pos (by simp)]
          rw [hgrpfull]
          by_cases hlen : 1 < (fileGroup x.owner_id x.folder_id files0 x).length
          · rw [if_pos (by simp [hlen, hmime])]
            simp only [decide_eq_true_eq]
            exact earliestFile_eq_of_min _ x hdist hgrp0mem (hsurv_iff.mp hsurv)
          · rw [if_neg (by simp [hlen])]
        · have hs2 : survivorB x.owner_id files0 x = false := by simpa using hsurv
          have hdelC : delPredB x.owner_id files0 C x = false := by
            simp [delPredB, hC]
          have hdelCons : delPredB x.owner_id files0 (x.folder_id :: C) x = true := by
            simp [delPredB, hs2, hmime]
          rw [hdelC, hdelCons, Bool.not_false, Bool.and_true, Bool.not_true]
          unfold keepFile
          rw [if_pos (by simp)]
          rw [hgrpfull]
          have hexists : ∃ y ∈ fileGroup x.owner_id x.folder_id files0 x,
              ¬ x.uploaded_at ≤ y.uploaded_at := by
            by_contra hno
            push_neg at hno
            exact hsurv (hsurv_iff.mpr (fun z hz => hno z hz))
          obtain ⟨y, hygrp, hylt⟩ := hexists
          have hyx : y ≠ x := fun h => hylt (by rw [h])
          have hlen : 1 < (fileGroup x.owner_id x.folder_id files0 x).length := by
            rcases hgl : fileGroup x.owner_id x.folder_id files0 x with _ | ⟨a, _ | ⟨b, tl⟩⟩
            · rw [hgl] at hgrp0mem
              cases hgrp0mem
            · rw [hgl] at hgrp0mem hygrp
              have hxa := List.mem_singleton.mp hgrp0mem
              have hya := List.mem_singleton.mp hygrp
              exact (hyx (hya.trans hxa.symm)).elim
            · simp
          rw [if_pos (by simp [hlen, hmime])]
          simp only [decide_eq_false_iff_not]
          intro heq
          obtain ⟨_, hmin⟩ := earliestFile_mem_min _ x heq
          exact hylt (hmin y hygrp)
    · have hm2 : x.mimetype.isSome = false := by simpa using hmime
      have hkeep : keepFile x.owner_id x.folder_id
          (List.filter (fun y => !delPredB x.owner_id files0 C y) files0) x = true := by
        unfold keepFile
        rw [if_pos (by simp)]
        simp [hm2]
      rw [hkeep, Bool.true_and]
      have h1 : delPredB x.owner_id files0 C x = false := by simp [delPredB, hm2]
      have h2 : delPredB x.owner_id files0 (x.folder_id :: C) x = false := by
        simp [delPredB, hm2]
      rw [h1, h2]
  · have hkeep : keepFile uid fid
        (List.filter (fun y => !delPredB uid files0 C y) files0) x = true := by
      unfold keepFile
      rw [if_neg hguard]
    rw [hkeep, Bool.true_and]
    have hq : ¬(x.owner_id = uid ∧ x.folder_id = fid) := by
      intro hcontra
      exact hguard (by simp [hcontra.1, hcontra.2])
    by_cases howner : x.owner_id = uid
    · have hfolder : x.folder_id ≠ fid := fun h => hq ⟨howner, h⟩
      have h1 : delPredB uid files0 C x = delPredB uid files0 (fid :: C) x := by
        simp [delPredB, List.mem_cons, hfolder]
      rw [h1]
    · have h0 : (x.owner_id == uid) = false := by simp [howner]
      have h1 : delPredB uid files0 C x = false := by simp [delPredB, h0]
      have h2 : delPredB uid files0 (fid :: C) x = false := by simp [delPredB, h0]
      rw [h1, h2]

/-- Visiting folders only prepends to the accumulated set. -/
theorem foldl_append_acc (g : Folder → List (Option Nat)) :
    ∀ (l : List Folder) (a0 C : List (Option Nat)),
      l.foldl (fun a s => g s ++ a) (a0 ++ C) = l.foldl (fun a s => g s ++ a) a0 ++ C := by
  intro l
  induction l with
  | nil => intro a0 C; rfl
  | cons s ls ih =>
    intro a0 C
    rw [List.foldl_cons, List.foldl_cons, ← List.append_assoc, ih]

/-- Nothing is deleted before any folder has been visited. -/
theorem cleanBySet_nil (uid : Nat) (files0 : List FileMeta) :
    cleanBySet uid files0 [] files0 = files0 := by
  rw [cleanBySet, List.filter_eq_self]
  intro a _
  simp [delPredB]

/-- The clean_directory recursion, run on a table already cleaned for the
folder set `C`, cleans exactly the visited folders on top of `C` and leaves
the folder table alone. -/
theorem cleanFolderRec_cleanBySet (uid : Nat) (folders0 : List Folder) (files0 : List FileMeta)
    (hfo : folders0.Nodup)
    (hnames : ∀ f ∈ folders0, ∀ g ∈ folders0,
      f.owner_id = g.owner_id → f.parent_id = g.parent_id → f.name = g.name → f = g)
    (hfi : files0.Nodup)
    (htimes : ∀ x ∈ files0, ∀ y ∈ files0, x.owner_id = y.owner_id →
      x.folder_id = y.folder_id → x.filename = y.filename → x.mimetype = y.mimetype →
      x.uploaded_at = y.uploaded_at → x = y) :
    ∀ fuel fid C,
      cleanFolderRec uid fuel fid ⟨folders0, cleanBySet uid files0 C files0⟩
        = ⟨folders0,
            cleanBySet uid files0 (visitedFolders uid folders0 fuel fid ++ C) files0⟩ := by
  intro fuel
  induction fuel with
  | zero =>
    intro fid C
    rw [cleanFolderRec, visitedFolders, List.nil_append]
  | succ fuel ih =>
    intro fid C
    have hfold : ∀ (subs : List Folder) (C2 : List (Option Nat)),
        List.foldl (fun d sf => cleanFolderRec uid fuel (some sf.id) d)
          (⟨folders0, cleanBySet uid files0 C2 files0⟩ : DB) subs
          = ⟨folders0,
              cleanBySet uid files0
                (List.foldl (fun a sf => visitedFolders uid folders0 fuel (some sf.id) ++ a)
                  C2 subs) files0⟩ := by
      intro subs
      induction subs with
      | nil => intro C2; rfl
      | cons sf rest ihs =>
        intro C2
        rw [List.foldl_cons, ih (some sf.id) C2, List.foldl_cons]
        exact ihs _
    rw [cleanFolderRec]
    dsimp only
    rw [cleanFoldersInFolder_eq_self uid fid folders0 hfo hnames,
        cleanFilesInFolder_step uid fid files0 C hfi htimes,
        hfold (childFolders uid fid folders0) (fid :: C), visitedFolders,
        show (fid :: C) = [fid] ++ C from rfl,
        foldl_append_acc (fun sf => visitedFolders uid folders0 fuel (some sf.id))]

/-- Claim C9, amended.  A clean_directory run touches no filesystem entry
and no folder row (sibling folder names being unique); and a file row
survives it exactly when either its folder was not visited (the requested
folder and, recursively, its subfolders), it belongs to another user, its
MIME type is null — such groups are never joined by the duplicate query,
whose column-to-column NULL comparison matches nothing — or it is the
earliest-uploaded member of its (filename, MIME type) group.  In particular
every visited non-null group with more than one member keeps exactly its
earliest row.  Hypotheses: folder rows duplicate-free with unique sibling
names, file rows duplicate-free with distinct timestamps inside each
group. -/
theorem clean_directory_keeps_earliest_nonnull_groups
    (uid : Nat) (fid : Option Nat) (s : State)
    (hfo : s.db.folders.Nodup)
    (hnames : ∀ f ∈ s.db.folders, ∀ g ∈ s.db.folders,
      f.owner_id = g.owner_id → f.parent_id = g.parent_id → f.name = g.name → f = g)
    (hfi : s.db.files.Nodup)
    (htimes : ∀ x ∈ s.db.files, ∀ y ∈ s.db.files, x.owner_id = y.owner_id →
      x.folder_id = y.folder_id → x.filename = y.filename → x.mimetype = y.mimetype →
      x.uploaded_at = y.uploaded_at → x = y) :
    (clean_directory uid fid s).fs = s.fs
    ∧ (clean_directory uid fid s).db.folders = s.db.folders
    ∧ (∀ x, x ∈ (clean_directory uid fid s).db.files ↔
        (x ∈ s.db.files ∧
          ((x.folder_id ∈ visitedFolders uid s.db.folders (s.db.folders.length + 1) fid
            ∧ x.owner_id = uid ∧ x.mimetype.isSome = true) →
            isEarliestInGroup uid s.db.files x))) := by
  have h0 : s.db = ⟨s.db.folders, cleanBySet uid s.db.files [] s.db.files⟩ := by
    rw [cleanBySet_nil]
  have hmain := cleanFolderRec_cleanBySet uid s.db.folders s.db.files hfo hnames hfi htimes
    (s.db.folders.length + 1) fid []
  rw [List.append_nil, ← h0] at hmain
  refine ⟨rfl, ?_, ?_⟩
  · show (cleanFolderRec uid (s.db.folders.length + 1) fid s.db).folders = s.db.folders
    rw [hmain]
  · intro x
    show x ∈ (cleanFolderRec uid (s.db.folders.length + 1) fid s.db).files ↔ _
    rw [hmain]
    unfold cleanBySet
    rw [List.mem_filter]
    constructor
    · rintro ⟨hmem, hpred⟩
      refine ⟨hmem, ?_⟩
      rintro ⟨hv, ho, hm⟩
      rw [Bool.not_eq_true'] at hpred
      have hs : survivorB uid s.db.files x = true := by
        by_contra hns
        have hns2 : survivorB uid s.db.files x = false := by simpa using hns
        rw [delPredB] at hpred
        simp [hv, ho, hm, hns2] at hpred
      exact (survivorB_iff uid s.db.files x).mp hs
    · rintro ⟨hmem, himpl⟩
      refine ⟨hmem, ?_⟩
      rw [Bool.not_eq_true']
      by_cases hv : x.folder_id ∈ visitedFolders uid s.db.folders (s.db.folders.length + 1) fid
      · by_cases ho : x.owner_id = uid
        · by_cases hm : x.mimetype.isSome = true
          · have hs := (survivorB_iff uid s.db.files x).mpr (himpl ⟨hv, ho, hm⟩)
            simp [delPredB, hs]
          · have hm2 : x.mimetype.isSome = false := by simpa using hm
            simp [delPredB, hm2]
        · have ho2 : (x.owner_id == uid) = false := by simp [ho]
          simp [delPredB, ho2]
      · simp [delPredB, hv]

/-- Two duplicate rows — same folder, filename and owner — whose MIME type
is null, with distinct upload timestamps. -/
def dupNullA : FileMeta :=
  { id := 1, filename := "blob", filepath := ["st", "1", "blob"], mimetype := none,
    size := 4, is_public := false, share_token := none, share_expiry := none,
    uploaded_at := 5, folder_id := none, owner_id := 1 }

/-- The later-uploaded duplicate of `dupNullA`. -/
def dupNullB : FileMeta := { dupNullA with id := 2, uploaded_at := 9 }

/-- The state of the null-MIME counterexample. -/
def nullDupState : State := ⟨⟨[], [dupNullA, dupNullB]⟩, ⟨[["st", "1"]], [(["st", "1", "blob"], 4)]⟩⟩

/-- Counterexample to claim C9.  The two rows form one (filename, MIME type)
group with two members and distinct timestamps, yet clean_directory deletes
neither: the duplicate query joins `FileMetadata.mimetype` against the group
key column, and a SQL `NULL = NULL` comparison is not true, so a group whose
MIME type is null is never matched.  The claim ("in every group with more
than one member, keeps exactly the record with the earliest upload
timestamp and deletes all the others") fails at this input. -/
theorem clean_directory_null_mime_group_untouched :
    dupNullA.filename = dupNullB.filename
    ∧ dupNullA.mimetype = dupNullB.mimetype
    ∧ dupNullA.folder_id = dupNullB.folder_id
    ∧ dupNullA.owner_id = dupNullB.owner_id
    ∧ dupNullA.uploaded_at < dupNullB.uploaded_at
    ∧ dupNullA.folder_id ∈ visitedFolders 1 nullDupState.db.folders 1 none
    ∧ (clean_directory 1 none nullDupState).db.files = [dupNullA, dupNullB]
    ∧ (clean_directory 1 none nullDupState).fs = nullDupState.fs := by
  decide

/-- Three rows of one non-null (filename, MIME type) group with distinct
timestamps; the middle one is the earliest. -/
def trioEarliest : FileMeta :=
  { id := 11, filename := "log.txt", filepath := ["st", "1", "log.txt"],
    mimetype := some "text/plain", size := 4, is_public := false, share_token := none,
    share_expiry := none, uploaded_at := 3, folder_id := none, owner_id := 1 }

/-- A later duplicate of `trioEarliest`. -/
def trioMid : FileMeta := { trioEarliest with id := 12, uploaded_at := 7 }

/-- The latest duplicate of `trioEarliest`. -/
def trioLate : FileMeta := { trioEarliest with id := 13, uploaded_at := 9 }

/-- The state of the duplicate-cleanup witness. -/
def trioState : State :=
  ⟨⟨[], [trioMid, trioEarliest, trioLate]⟩, ⟨[["st", "1"]], [(["st", "1", "log.txt"], 4)]⟩⟩

/-- Witness for the amended claim C9: of three duplicate rows with distinct
timestamps and a non-null MIME type, cleanup keeps exactly the earliest and
leaves the filesystem alone, and the general theorem applies to the concrete
state. -/
theorem clean_directory_keeps_earliest_witness :
    (clean_directory 1 none trioState).db.files = [trioEarliest]
    ∧ ((clean_directory 1 none trioState).fs = trioState.fs
      ∧ (clean_directory 1 none trioState).db.folders = trioState.db.folders
      ∧ (∀ x, x ∈ (clean_directory 1 none trioState).db.files ↔
          (x ∈ trioState.db.files ∧
            ((x.folder_id ∈ visitedFolders 1 trioState.db.folders
                (trioState.db.folders.length + 1) none
              ∧ x.owner_id = 1 ∧ x.mimetype.isSome = true) →
              isEarliestInGroup 1 trioState.db.files x)))) :=
  ⟨by decide,
    clean_directory_keeps_earliest_nonnull_groups 1 none trioState (by decide) (by decide)
      (by decide) (by decide)⟩

/-- A top-level folder `Docs` of user 7. -/
def folderDocs : Folder := { id := 1, name := "Docs", parent_id := none, owner_id := 7, created_at := 0 }

/-- A folder `Sub` nested inside `Docs`. -/
def folderSub : Folder := { id := 2, name := "Sub", parent_id := some 1, owner_id := 7, created_at := 0 }

/-- A root-level file of user 7, about to be moved into the nested `Sub`. -/
def nestedFile : FileMeta :=
  { id := 10, filename := "f.txt", filepath := ["st", "7", "f.txt"],
    mimetype := some "text/plain", size := 3, is_public := false, share_token := none,
    share_expiry := none, uploaded_at := 0, folder_id := none, owner_id := 7 }

/-- The state of the nested-move counterexample, its on-disk tree a faithful
mirror of the database. -/
def nestedMoveState : State :=
  ⟨⟨[folderDocs, folderSub], [nestedFile]⟩,
   ⟨[["st", "7"], ["st", "7", "Docs"], ["st", "7", "Docs", "Sub"]], [(["st", "7", "f.txt"], 3)]⟩⟩

/-- Counterexample to claim C2: the mirror invariant holds before the move
and the move of the file into the nested folder `Sub` succeeds (200), but the
moved row's stored filepath is `st/7/Sub/f.txt` — move_item builds the path
from the destination folder's own name only — while the full ancestor chain
of its containing folder is `Docs/Sub`, so the invariant is broken
afterwards. -/
theorem move_into_nested_folder_breaks_mirror :
    mirrorDB "st" nestedMoveState.db
    ∧ (move_item "st" 7 ⟨"file", 10, some 2⟩ nestedMoveState).1 = 200
    ∧ (move_item "st" 7 ⟨"file", 10, some 2⟩ nestedMoveState).2.db.files.map (·.filepath)
      = [["st", "7", "Sub", "f.txt"]]
    ∧ chainNames nestedMoveState.db.folders (some 2) 3 = some ["Docs", "Sub"]
    ∧ ¬ mirrorDB "st" (move_item "st" 7 ⟨"file", 10, some 2⟩ nestedMoveState).2.db := by
  decide

/-- Claim C2, amended.  When the destination folder of a file move is the
root or a top-level folder (its parent is the root) — so that the
single-segment path move_item builds coincides with the full ancestor
chain — a successful move preserves the filesystem-layout invariant for
every row.  (The counterexample above shows the invariant breaks when the
destination is nested deeper.) -/
theorem move_file_shallow_dest_preserves_mirror
    (root : String) (uid : Nat) (req : MoveRequest) (s : State) (file : FileMeta)
    (e : List String × Nat)
    (htype : req.item_type = "file")
    (hfile : findFile s.db req.item_id uid = some file)
    (he : s.fs.files.find? (·.1 == file.filepath) = some e)
    (hdest : req.destination_folder_id = none ∨
      ∃ i d, req.destination_folder_id = some i ∧ findFolder s.db i uid = some d ∧
        d.parent_id = none)
    (hids : ∀ g1 ∈ s.db.folders, ∀ g2 ∈ s.db.folders, g1.id = g2.id → g1 = g2)
    (hinv : mirrorDB root s.db) :
    ∃ sOut, move_item root uid req s = (200, sOut)
      ∧ sOut.db.folders = s.db.folders ∧ mirrorDB root sOut.db := by
  obtain ⟨it, iid, did⟩ := req
  dsimp only at htype hfile hdest ⊢
  subst htype
  obtain ⟨hmem, hid, howner⟩ := findFile_props s.db iid uid file hfile
  have hfile2 : s.db.files.find? (fun y => y.id == file.id && y.owner_id == uid) = some file := by
    rw [hid]
    exact hfile
  rcases hdest with hnone | ⟨i, d, hi, hd, hdpar⟩
  · subst hnone
    obtain ⟨sOut, hop, hfolders, hfiles⟩ := moveFileOp_ok root uid iid none none s file e hfile he
    refine ⟨sOut, ?_, hfolders, ?_⟩
    · simp [move_item, moveItemBody, resolveDest, hop]
    · intro x hx
      rw [hfiles] at hx
      rw [hfolders]
      rcases mem_updateFirst_of_find? _ _ s.db.files file hfile2 x hx with hold | hnew
      · exact hinv x hold
      · subst hnew
        simp [mirrorRow, chainNames, howner]
  · subst hi
    obtain ⟨sOut, hop, hfolders, hfiles⟩ :=
      moveFileOp_ok root uid iid (some i) (some d) s file e hfile he
    obtain ⟨hdmem, hdi, hdowner⟩ := findFolder_props s.db i uid d hd
    have hbyid : s.db.folders.find? (fun f => f.id == i) = some d :=
      findById_eq_of_mem s.db.folders d i hids hdmem hdi
    refine ⟨sOut, ?_, hfolders, ?_⟩
    · simp [move_item, moveItemBody, resolveDest, hd, hop]
    · intro x hx
      rw [hfiles] at hx
      rw [hfolders]
      rcases mem_updateFirst_of_find? _ _ s.db.files file hfile2 x hx with hold | hnew
      · exact hinv x hold
      · subst hnew
        simp [mirrorRow, chainNames, hbyid, hdpar, howner]

/-- A top-level folder of user 7 for the witness move. -/
def folderD : Folder := { id := 1, name := "D", parent_id := none, owner_id := 7, created_at := 0 }

/-- A root-level file of user 7 for the witness move. -/
def rootFileG : FileMeta :=
  { id := 5, filename := "g.txt", filepath := ["st", "7", "g.txt"], mimetype := none,
    size := 1, is_public := false, share_token := none, share_expiry := none,
    uploaded_at := 0, folder_id := none, owner_id := 7 }

/-- The witness state: one top-level folder, one root-level file, disk in
sync. -/
def mirrorWitnessState : State :=
  ⟨⟨[folderD], [rootFileG]⟩, ⟨[["st", "7"], ["st", "7", "D"]], [(["st", "7", "g.txt"], 1)]⟩⟩

/-- Witness for the amended claim C2: moving the root-level file into the
top-level folder succeeds and the mirror invariant still holds. -/
theorem move_mirror_witness :
    ∃ sOut, move_item "st" 7 ⟨"file", 5, some 1⟩ mirrorWitnessState = (200, sOut)
      ∧ sOut.db.folders = mirrorWitnessState.db.folders ∧ mirrorDB "st" sOut.db :=
  move_file_shallow_dest_preserves_mirror "st" 7 ⟨"file", 5, some 1⟩ mirrorWitnessState rootFileG
    (["st", "7", "g.txt"], 1) rfl (by decide) (by decide)
    (Or.inr ⟨1, folderD, rfl, by decide, rfl⟩) (by decide) (by decide)

/-- Claim C10.  An upload whose final stored name has no recognized
extension records a null MIME type — upload_file stores
`mimetypes.guess_type(name)[0]` with no fallback — while the directory-sync
engine substitutes "application/octet-stream" whenever inference fails. -/
theorem upload_mime_null_sync_falls_back :
    ((uploadBody "st" 1 0 none "README" 7 sampleEmpty).toOption.map
      (fun p => p.1.mimetype)) = some none
    ∧ guess_type "README" = none
    ∧ syncInferredMime "README" = "application/octet-stream"
    ∧ (∀ n : String, guess_type n = none → syncInferredMime n = "application/octet-stream")
    ∧ guess_type "report.pdf" = some "application/pdf" := by
  refine ⟨by decide, by decide, by decide, ?_, by decide⟩
  intro n h
  simp [syncInferredMime, h]

end FileManager
